import Mathlib

/-!
Verification of libusb core (`libusb/core.c`): descriptor fetch, registries, poll set.

A shallow embedding of `scan_device`, `scan_busdir`, `libusb_find_devices`,
`libusb_get_devices`, `libusb_dev_next`, `libusb_open`, `do_close`,
`libusb_close`, `libusb_init`, `libusb_exit` and `libusb_get_pollfds`.

* The two global lists `usb_devs` and `open_devs` are Lean lists in iteration
  order (the element reached first by `list_for_each_entry` is the head).
* Calls that leave `core.c` (the operating system's `open`, `read`, `close`,
  and the I/O layer's `usbi_add_pollfd`, `usbi_remove_pollfd`) are recorded,
  in program order, in the `calls` field of the state.
* What the outside world answers (the value `open` returns, what each `read`
  returns and leaves in the destination buffer, whether an allocation
  succeeds) is an explicit argument.
* Constants and functions of the repository that `core.c` uses but does not
  define (`DEVICE_DESC_LENGTH`, `USB_MAXCONFIG`, `usbi_parse_descriptor`,
  `usbi_parse_configuration`) are fields of `Ext`, next to `PATH_MAX`; the
  general theorems hold for every value of them. The list primitives
  `list_add` and `list_del` of `libusbi.h` are modelled on Lean lists.
* A handle pointer is the position of its node in `open_devs`, a device
  pointer the position of its node in `usb_devs`.
* The node tree (what `opendir` and `readdir` give for the bus root and for
  each bus) is an explicit argument of the scanner, as is `USBFS_PATH`.
-/

namespace Libusb

/-! ## Machine-level constants -/

/-- Width of `size_t` in bits (the 32-bit targets of this port). -/
def SIZE_BITS : Nat := 32

/-- Conversion of an `int` to `size_t`: reduction modulo `2 ^ SIZE_BITS`. -/
def to_size_t (x : Int) : Nat := (x % (2 ^ SIZE_BITS : Int)).toNat

/-- The value of `POLLOUT` in `<poll.h>`. -/
def POLLOUT : Int := 4

/-- The value of `ENOMEM` in `<errno.h>`. -/
def ENOMEM : Int := 12

/-! ## Data model -/

/-- Fields of `struct libusb_dev_descriptor`, in the order of the layout string
`"bbWbbbbWWWbbbb"` that `scan_device` hands to `usbi_parse_descriptor`. -/
structure libusb_dev_descriptor where
  bLength : Nat
  bDescriptorType : Nat
  bcdUSB : Nat
  bDeviceClass : Nat
  bDeviceSubClass : Nat
  bDeviceProtocol : Nat
  bMaxPacketSize0 : Nat
  idVendor : Nat
  idProduct : Nat
  bcdDevice : Nat
  iManufacturer : Nat
  iProduct : Nat
  iSerialNumber : Nat
  bNumConfigurations : Nat
  deriving DecidableEq, Repr

/-- A `struct libusb_dev`; `config` is the array `dev->config`, one entry per
configuration, of whatever type the configuration parser produces. -/
structure libusb_dev (Cfg : Type) where
  desc : libusb_dev_descriptor
  config : List Cfg
  nodepath : String
  deriving DecidableEq, Repr

/-- A `struct libusb_dev_handle`. -/
structure libusb_dev_handle (Cfg : Type) where
  fd : Int
  dev : libusb_dev Cfg
  deriving DecidableEq, Repr

/-- A `struct libusb_pollfd`. -/
structure libusb_pollfd where
  fd : Int
  events : Int
  deriving DecidableEq, Repr

/-- Calls that leave `core.c`, as they are recorded in program order. -/
inductive Call where
  | sys_open (path : String) (ret : Int)
  | sys_read (fd : Int) (count : Nat)
  | sys_close (fd : Int)
  | usbi_add_pollfd (fd : Int) (events : Int)
  | usbi_remove_pollfd (fd : Int)
  deriving DecidableEq, Repr

/-- The process-wide state: the device registry `usb_devs`, the open-handle
registry `open_devs`, and the record of outside calls made so far. -/
structure State (Cfg : Type) where
  usb_devs : List (libusb_dev Cfg)
  open_devs : List (libusb_dev_handle Cfg)
  calls : List Call
  deriving DecidableEq, Repr

/-- Record one outside call. -/
def State.call {Cfg : Type} (st : State Cfg) (c : Call) : State Cfg :=
  ⟨st.usb_devs, st.open_devs, st.calls ++ [c]⟩

/-- Record several outside calls. -/
def State.callMany {Cfg : Type} (st : State Cfg) (cs : List Call) : State Cfg :=
  ⟨st.usb_devs, st.open_devs, st.calls ++ cs⟩

/-- Modelled from the spec: `list_add` is defined in `libusbi.h`, which is not
among the sources. It is the usual insert-after-head primitive: the new entry
becomes the first one that `list_for_each_entry` reaches. -/
def list_add {α : Type} (entry : α) (head : List α) : List α := entry :: head

/-- Modelled from the spec: `list_del` is defined in `libusbi.h`, which is not
among the sources. It unlinks one node, here the node at position `p`, and
leaves every other node in place. -/
def list_del {α : Type} (head : List α) (p : Nat) : List α := head.eraseIdx p

/-- The byte counts of the `read` calls in a record of calls, in order. -/
def readCounts : List Call → List Nat
  | [] => []
  | Call.sys_read _ n :: cs => n :: readCounts cs
  | _ :: cs => readCounts cs

/-! ## The outside world -/

/-- Parts of the repository that `core.c` uses and does not define. -/
structure Ext (Cfg : Type) where
  /-- Length of a device descriptor (`libusbi.h`). -/
  DEVICE_DESC_LENGTH : Nat
  /-- Largest accepted number of configurations (`libusbi.h`). -/
  USB_MAXCONFIG : Nat
  /-- The constant `PATH_MAX` of `<limits.h>`. -/
  PATH_MAX : Nat
  /-- The descriptor decoder: source bytes and layout string to the decoded
  field values, in layout order. -/
  usbi_parse_descriptor : List Nat → String → List Nat
  /-- The configuration parser: complete configuration buffer to the parsed
  configuration and the returned `int`. -/
  usbi_parse_configuration : List Nat → Cfg × Int

/-- The answer to one `read` call: the value returned, and the contents of the
destination buffer once the call is back (bytes the call did not store are
whatever the buffer held before). -/
structure ReadReply where
  ret : Int
  buf : List Nat
  deriving DecidableEq, Repr

/-- What the outside world does during one `scan_device` call. -/
structure NodeEnv where
  /-- Whether `malloc(sizeof(*dev))` succeeds. -/
  dev_alloc : Bool
  /-- The value `open(path, O_RDWR)` returns. -/
  open_ret : Int
  /-- The answer to the `k`-th `read` call (counted from 0). -/
  reads : Nat → ReadReply
  /-- Whether the allocation of `dev->config` succeeds. -/
  config_alloc : Bool
  /-- Whether the allocation of `bigbuffer` succeeds in iteration `i`. -/
  big_alloc : Nat → Bool
  /-- Whether `strdup(path)` succeeds. -/
  path_alloc : Bool

/-- What the outside world does during one `libusb_open` call. -/
structure OpenEnv where
  /-- The value `open(dev->nodepath, O_RDWR)` returns. -/
  open_ret : Int
  /-- Whether `malloc(sizeof(*devh))` succeeds. -/
  devh_alloc : Bool

/-! ## scan_device -/

/-- The structure `dev->desc` filled from the decoded field values, each
reduced to the width of its C type. -/
def dev_desc_of (f : List Nat) : libusb_dev_descriptor :=
  ⟨f.getD 0 0 % 256, f.getD 1 0 % 256, f.getD 2 0 % 65536, f.getD 3 0 % 256,
   f.getD 4 0 % 256, f.getD 5 0 % 256, f.getD 6 0 % 256, f.getD 7 0 % 65536,
   f.getD 8 0 % 65536, f.getD 9 0 % 65536, f.getD 10 0 % 256, f.getD 11 0 % 256,
   f.getD 12 0 % 256, f.getD 13 0 % 256⟩

/-- The device descriptor decoded from the 18-byte buffer `raw_desc`:
`usbi_parse_descriptor(raw_desc, "bbWbbbbWWWbbbb", &dev->desc)`. -/
def decode_dev_desc {Cfg : Type} (E : Ext Cfg) (raw : List Nat) : libusb_dev_descriptor :=
  dev_desc_of (E.usbi_parse_descriptor raw "bbWbbbbWWWbbbb")

/-- The field `config.wTotalLength` (a 16-bit field, third in the layout)
after `usbi_parse_descriptor(buffer, "bbw", &config)`. -/
def decode_wTotalLength {Cfg : Type} (E : Ext Cfg) (buffer : List Nat) : Nat :=
  (E.usbi_parse_descriptor buffer "bbw").getD 2 0 % 65536

/-- The string `snprintf(path, PATH_MAX, "%s/%s", busdir, devnum)` leaves in
`path`: at most `PATH_MAX - 1` characters of `busdir/devnum`. -/
def snprintf_path (PATH_MAX : Nat) (busdir devnum : String) : String :=
  ⟨(busdir.data ++ '/' :: devnum.data).take (PATH_MAX - 1)⟩

/-- How the configuration loop is left: by `goto err` with the current `r`, or
by running to completion with the current `r` and the filled `dev->config`. -/
inductive Flow (Cfg : Type) where
  | err (r : Int)
  | done (r : Int) (config : List Cfg)
  deriving DecidableEq, Repr

/-- The loop `for (i = 0; i < dev->desc.bNumConfigurations; i++)` of
`scan_device`. Arguments: iterations still to run, the index `i`, the number
`k` of `read` calls issued so far, the current `r`, the configurations parsed
so far. Result: how the loop is left, and the outside calls it made. -/
def fetch_configs {Cfg : Type} (E : Ext Cfg) (env : NodeEnv) (fd : Int) :
    Nat → Nat → Nat → Int → List Cfg → Flow Cfg × List Call
  | 0, _, _, r, acc => (Flow.done r acc, [])
  | todo + 1, i, k, _, acc =>
    -- r = read(fd, buffer, sizeof(buffer));
    let hdr := env.reads k
    let c1 := Call.sys_read fd 8
    -- if (r < sizeof(buffer)) goto err;   (r is converted to size_t)
    if to_size_t hdr.ret < 8 then (Flow.err hdr.ret, [c1])
    else
      -- usbi_parse_descriptor(buffer, "bbw", &config);
      let wTotalLength := decode_wTotalLength E hdr.buf
      -- bigbuffer = malloc(config.wTotalLength); if (!bigbuffer) goto err;
      if !env.big_alloc i then (Flow.err hdr.ret, [c1])
      else
        -- tmp = config.wTotalLength - 8; r = read(fd, bigbuffer + 8, tmp);
        let tmp : Int := (wTotalLength : Int) - 8
        let body := env.reads (k + 1)
        let c2 := Call.sys_read fd (to_size_t tmp)
        -- if (r < tmp) { free(bigbuffer); goto err; }
        if body.ret < tmp then (Flow.err body.ret, [c1, c2])
        else
          -- r = usbi_parse_configuration(&dev->config[i], bigbuffer);
          let parsed := E.usbi_parse_configuration (hdr.buf ++ body.buf)
          let rest := fetch_configs E env fd todo (i + 1) (k + 2) parsed.2 (acc ++ [parsed.1])
          (rest.1, c1 :: c2 :: rest.2)

/-- The code at the label `err:` of `scan_device`: close `fd` when it is
non-zero and return `r`. -/
def scan_err {Cfg : Type} (st : State Cfg) (fd r : Int) : Int × State Cfg :=
  (r, if fd ≠ 0 then st.call (Call.sys_close fd) else st)

/-- The function `scan_device(busdir, devnum)`: the returned `int` and the
state it leaves. -/
def scan_device {Cfg : Type} (E : Ext Cfg) (env : NodeEnv) (st : State Cfg)
    (busdir devnum : String) : Int × State Cfg :=
  -- struct libusb_dev *dev = malloc(sizeof(*dev)); if (!dev) return -1;
  if !env.dev_alloc then (-1, st)
  else
    let path := snprintf_path E.PATH_MAX busdir devnum
    -- fd = open(path, O_RDWR);
    let fd := env.open_ret
    let st1 := st.call (Call.sys_open path fd)
    -- if (!fd) { r = -1; goto err; }
    if fd = 0 then scan_err st1 fd (-1)
    else
      -- r = read(fd, raw_desc, DEVICE_DESC_LENGTH); if (r < 0) goto err;
      let first := env.reads 0
      let st2 := st1.call (Call.sys_read fd E.DEVICE_DESC_LENGTH)
      if first.ret < 0 then scan_err st2 fd first.ret
      else
        -- usbi_parse_descriptor(raw_desc, "bbWbbbbWWWbbbb", &dev->desc);
        let desc := decode_dev_desc E first.buf
        if desc.bNumConfigurations > E.USB_MAXCONFIG then scan_err st2 fd (-1)
        else if desc.bNumConfigurations < 1 then scan_err st2 fd (-1)
        -- dev->config = malloc(tmp); if (!dev->config) { r = -1; goto err; }
        else if !env.config_alloc then scan_err st2 fd (-1)
        else
          match fetch_configs E env fd desc.bNumConfigurations 0 1 first.ret [] with
          | (Flow.err r, cs) => scan_err (st2.callMany cs) fd r
          | (Flow.done r config, cs) =>
            -- dev->nodepath = strdup(path); if (!dev->nodepath) goto err;
            if !env.path_alloc then scan_err (st2.callMany cs) fd r
            else
              -- list_add(&dev->list, &usb_devs); r = 0;
              let dev : libusb_dev Cfg := ⟨desc, config, path⟩
              let st3 : State Cfg :=
                ⟨list_add dev st.usb_devs, st.open_devs, (st2.callMany cs).calls⟩
              scan_err st3 fd 0

/-! ## Handles -/

/-- The function `libusb_open(dev)`: the returned handle (`none` for `NULL`) and
the state it leaves. -/
def libusb_open {Cfg : Type} (env : OpenEnv) (st : State Cfg) (dev : libusb_dev Cfg) :
    Option (libusb_dev_handle Cfg) × State Cfg :=
  -- fd = open(dev->nodepath, O_RDWR);
  let fd := env.open_ret
  let st1 := st.call (Call.sys_open dev.nodepath fd)
  -- if (!fd) return NULL;
  if fd = 0 then (none, st1)
  -- devh = malloc(sizeof(*devh)); if (!devh) { close(fd); return NULL; }
  else if !env.devh_alloc then (none, st1.call (Call.sys_close fd))
  else
    -- devh->fd = fd; devh->dev = dev; list_add(&devh->list, &open_devs);
    let devh : libusb_dev_handle Cfg := ⟨fd, dev⟩
    let st2 : State Cfg := ⟨st1.usb_devs, list_add devh st1.open_devs, st1.calls⟩
    -- usbi_add_pollfd(fd, POLLOUT);
    (some devh, st2.call (Call.usbi_add_pollfd fd POLLOUT))

/-- The function `do_close(devh)`. -/
def do_close {Cfg : Type} (st : State Cfg) (devh : libusb_dev_handle Cfg) : State Cfg :=
  (st.call (Call.usbi_remove_pollfd devh.fd)).call (Call.sys_close devh.fd)

/-- The function `libusb_close(devh)`. The pointer `devh` is `none` for `NULL`
and `some p` for the node at position `p` of `open_devs`; the result is `none`
when `devh` is not a node of `open_devs` (C leaves that case undefined). -/
def libusb_close {Cfg : Type} (st : State Cfg) (devh : Option Nat) : Option (State Cfg) :=
  match devh with
  -- if (!devh) return;
  | none => some st
  | some p =>
    match st.open_devs.get? p with
    | none => none
    | some h =>
      -- list_del(&devh->list); do_close(devh); free(devh);
      some (do_close ⟨st.usb_devs, list_del st.open_devs p, st.calls⟩ h)

/-! ## Poll set -/

/-- The two members of `struct libusb_pollfd`. -/
inductive PollField where
  | fd
  | events
  deriving DecidableEq, Repr

/-- One assignment `ret[index].field = value`. -/
structure Store where
  index : Nat
  field : PollField
  value : Int
  deriving DecidableEq, Repr

/-- The array after one assignment. An assignment at an index past the end of
the array lands outside it and leaves its elements as they are. -/
def poll_store (arr : List libusb_pollfd) (s : Store) : List libusb_pollfd :=
  match arr.get? s.index with
  | none => arr
  | some e =>
    match s.field with
    | PollField.fd => arr.set s.index ⟨s.value, e.events⟩
    | PollField.events => arr.set s.index ⟨e.fd, s.value⟩

/-- The second loop of `libusb_get_pollfds`, over the handles still to visit,
from index `i`: the array it leaves and the assignments it made, in order. -/
def fill_pollfds {Cfg : Type} :
    List (libusb_dev_handle Cfg) → Nat → List libusb_pollfd → List libusb_pollfd × List Store
  | [], _, arr => (arr, [])
  | devh :: rest, i, arr =>
    -- ret[i++].fd = devh->fd;
    let s1 : Store := ⟨i, PollField.fd, devh.fd⟩
    -- ret[i].events = POLLOUT;
    let s2 : Store := ⟨i + 1, PollField.events, POLLOUT⟩
    let out := fill_pollfds rest (i + 1) (poll_store (poll_store arr s1) s2)
    (out.1, s1 :: s2 :: out.2)

/-- What `libusb_get_pollfds(pollfds)` produces: the `size_t` returned, the
array stored through `pollfds` (`none` when nothing is stored), and the
assignments to array elements, in order. -/
structure PollfdsOut where
  ret : Nat
  pollfds : Option (List libusb_pollfd)
  stores : List Store
  deriving DecidableEq, Repr

/-- The function `libusb_get_pollfds(pollfds)`; `calloc_ok` tells whether
`calloc` returns a non-null pointer. -/
def libusb_get_pollfds {Cfg : Type} (calloc_ok : Bool) (st : State Cfg) : PollfdsOut :=
  -- list_for_each_entry(devh, &open_devs, list) cnt++;
  let cnt := st.open_devs.length
  -- ret = calloc(cnt, sizeof(struct libusb_pollfd)); if (!ret) return -ENOMEM;
  if !calloc_ok then ⟨to_size_t (-ENOMEM), none, []⟩
  else
    let out := fill_pollfds st.open_devs 0 (List.replicate cnt ⟨0, 0⟩)
    -- *pollfds = ret; return cnt;
    ⟨cnt, some out.1, out.2⟩

/-! ## A reference instance of the outside parts -/

/-- Modelled from the spec: `usbi_parse_descriptor` is defined in
`descriptor.c`, which is not among the sources; the spec describes it as a pure
function from bytes and a field layout to typed fields. Here the layout letters
are read as at the call sites in `core.c`: `b` is one byte, `w` and `W` are a
16-bit word stored low byte first; the result lists the fields in layout order. -/
def ref_parse_fields : List Char → List Nat → List Nat
  | [], _ => []
  | 'b' :: fmt, src => src.getD 0 0 :: ref_parse_fields fmt (src.drop 1)
  | 'w' :: fmt, src => (src.getD 0 0 + 256 * src.getD 1 0) :: ref_parse_fields fmt (src.drop 2)
  | 'W' :: fmt, src => (src.getD 0 0 + 256 * src.getD 1 0) :: ref_parse_fields fmt (src.drop 2)
  | _ :: fmt, src => ref_parse_fields fmt src

/-- Modelled from the spec: the collaborators of `core.c` with their usual
values: an 18-byte device descriptor, at most 8 configurations, `PATH_MAX` 4096,
the layout-driven decoder `ref_parse_fields`, and a configuration parser that
keeps the complete buffer and reports no byte left over. -/
def refExt : Ext (List Nat) :=
  ⟨18, 8, 4096, fun src fmt => ref_parse_fields fmt.data src, fun buf => (buf, 0)⟩

/-- The empty state. -/
def State.empty {Cfg : Type} : State Cfg := ⟨[], [], []⟩

/-- A node that answers the listed replies in order, then end of file; every
allocation succeeds. -/
def nodeOf (open_ret : Int) (replies : List ReadReply) : NodeEnv :=
  ⟨true, open_ret, fun k => replies.getD k ⟨0, []⟩, true, fun _ => true, true⟩

/-- An 18-byte device descriptor announcing `n` configurations. -/
def devDescBytes (n : Nat) : List Nat :=
  [18, 1, 0, 2, 0, 0, 0, 64, 0x34, 0x12, 0x78, 0x56, 0, 1, 1, 2, 3, n]

/-- An 8-byte configuration header announcing `wTotalLength = len` (below 256). -/
def cfgHeaderBytes (len : Nat) : List Nat :=
  [9, 2, len, 0, 1, 1, 0, 0x80]

/-- A node with two configurations of 9 and 10 bytes, every read full. -/
def twoConfigNode : NodeEnv :=
  nodeOf 3 [⟨18, devDescBytes 2⟩, ⟨8, cfgHeaderBytes 9⟩, ⟨1, [50]⟩,
    ⟨8, cfgHeaderBytes 10⟩, ⟨2, [50, 1]⟩]

/-- A node whose device descriptor announces no configuration. -/
def noConfigNode : NodeEnv :=
  nodeOf 3 [⟨18, devDescBytes 0⟩, ⟨8, cfgHeaderBytes 9⟩, ⟨1, [50]⟩]

/-- A node whose first read stores only 17 of the 18 descriptor bytes; the last
byte of `raw_desc`, which the read did not store, holds 1. One full
configuration of 9 bytes follows. -/
def shortDescNode : NodeEnv :=
  nodeOf 3 [⟨17, devDescBytes 1⟩, ⟨8, cfgHeaderBytes 9⟩, ⟨1, [50]⟩]

/-- A node announcing two configurations whose first header declares
`wTotalLength = 9` and whose body read then returns 0 bytes instead of 1. -/
def shortBodyNode : NodeEnv :=
  nodeOf 3 [⟨18, devDescBytes 2⟩, ⟨8, cfgHeaderBytes 9⟩, ⟨0, [0]⟩]

/-- A node with two configurations on which the header read of the second
configuration fails with -1 (the 8-byte `buffer` still holds the header of the
first configuration), and so does the read after it. -/
def failedHeaderNode : NodeEnv :=
  nodeOf 3 [⟨18, devDescBytes 2⟩, ⟨8, cfgHeaderBytes 9⟩, ⟨1, [50]⟩,
    ⟨-1, cfgHeaderBytes 9⟩, ⟨-1, [0]⟩]

/-- A device as `scan_device` registers it. -/
def sampleDev : libusb_dev (List Nat) :=
  ⟨decode_dev_desc refExt (devDescBytes 1), [[9, 2, 9, 0, 1, 1, 0, 0x80, 50]],
    "/dev/bus/usb/001/002"⟩

/-- A state with three open handles, on descriptors 7, 5 and 4 in registry
order. -/
def threeOpen : State (List Nat) :=
  ⟨[sampleDev], [⟨7, sampleDev⟩, ⟨5, sampleDev⟩, ⟨4, sampleDev⟩], []⟩

/-! ## Vocabulary for statements about scan_device -/

/-- The outside calls recorded between state `st` and the later state `st2`. -/
def newCalls {Cfg : Type} (st st2 : State Cfg) : List Call :=
  st2.calls.drop st.calls.length

/-- The number of configurations the device descriptor read first announces. -/
def num_configs {Cfg : Type} (E : Ext Cfg) (env : NodeEnv) : Nat :=
  (decode_dev_desc E (env.reads 0).buf).bNumConfigurations

/-- The answer to the header read of configuration `i`, when every earlier
configuration took its two reads: read number `1 + 2 * i`. -/
def cfg_header (env : NodeEnv) (i : Nat) : ReadReply := env.reads (1 + 2 * i)

/-- The answer to the body read of configuration `i`: read number `2 + 2 * i`. -/
def cfg_body (env : NodeEnv) (i : Nat) : ReadReply := env.reads (2 + 2 * i)

/-- The `wTotalLength` decoded from the header of configuration `i`. -/
def cfg_length {Cfg : Type} (E : Ext Cfg) (env : NodeEnv) (i : Nat) : Nat :=
  decode_wTotalLength E (cfg_header env i).buf

/-- The complete buffer of configuration `i`: the 8 header bytes followed by
the body bytes. -/
def cfg_buffer (env : NodeEnv) (i : Nat) : List Nat :=
  (cfg_header env i).buf ++ (cfg_body env i).buf

/-- Configuration `i` passes all three checks of the loop body: the header read
is not short, `bigbuffer` is allocated, the body read is not short. -/
def cfg_complete {Cfg : Type} (E : Ext Cfg) (env : NodeEnv) (i : Nat) : Prop :=
  8 ≤ to_size_t (cfg_header env i).ret ∧ env.big_alloc i = true ∧
    (cfg_length E env i : Int) - 8 ≤ (cfg_body env i).ret

instance cfg_complete_decidable {Cfg : Type} (E : Ext Cfg) (env : NodeEnv) (i : Nat) :
    Decidable (cfg_complete E env i) := by
  unfold cfg_complete
  exact inferInstance

/-- The two `read` calls of configuration `i`. -/
def cfg_calls {Cfg : Type} (E : Ext Cfg) (env : NodeEnv) (fd : Int) (i : Nat) : List Call :=
  [Call.sys_read fd 8, Call.sys_read fd (to_size_t ((cfg_length E env i : Int) - 8))]

/-! ## Initialisation, teardown and registry iteration -/

/-- The function `libusb_init()`: both lists are made empty and 0 is returned.
(The call `usbi_io_init()` belongs to the I/O layer and touches neither list.) -/
def libusb_init {Cfg : Type} (st : State Cfg) : Int × State Cfg :=
  -- list_init(&usb_devs); list_init(&open_devs); usbi_io_init(); return 0;
  (0, ⟨[], [], st.calls⟩)

/-- The loop `list_for_each_entry(devh, &open_devs, list) do_close(devh);` over
the handles still to visit. -/
def close_each {Cfg : Type} : List (libusb_dev_handle Cfg) → State Cfg → State Cfg
  | [], st => st
  | devh :: rest, st => close_each rest (do_close st devh)

/-- The function `libusb_exit()`. -/
def libusb_exit {Cfg : Type} (st : State Cfg) : State Cfg :=
  -- if (!list_empty(&open_devs)) { list_for_each_entry(...) do_close(devh); }
  if st.open_devs.isEmpty then st else close_each st.open_devs st

/-- The function `libusb_get_devices()`: `none` for `NULL`, `some 0` for the
entry `usb_devs.next`, the node at position 0. -/
def libusb_get_devices {Cfg : Type} (st : State Cfg) : Option Nat :=
  -- if (list_empty(&usb_devs)) return NULL;
  if st.usb_devs.isEmpty then none
  -- return list_entry(usb_devs.next, struct libusb_dev, list);
  else some 0

/-- The function `libusb_dev_next(dev)` for the node at position `dev` of
`usb_devs`: `some none` for `NULL`, `some (some q)` for the node at position
`q`; the result is `none` when `dev` is not a node of `usb_devs` (C leaves that
case undefined). -/
def libusb_dev_next {Cfg : Type} (st : State Cfg) (dev : Nat) : Option (Option Nat) :=
  if dev < st.usb_devs.length then
    -- if (!head || head->next == &usb_devs) return NULL;
    if dev + 1 = st.usb_devs.length then some none
    -- return list_entry(head->next, struct libusb_dev, list);
    else some (some (dev + 1))
  else none

/-! ## The device scanner -/

/-- The test `entry->d_name[0] == '.'`. -/
def is_hidden (d_name : String) : Bool := d_name.data.head? == some '.'

/-- One entry of the bus root as `readdir` returns it: its name, and what
`opendir` on it gives: `none` when `opendir` fails, otherwise the entries
`readdir` returns there, each a name with the behaviour of that node. -/
structure BusDir where
  d_name : String
  listing : Option (List (String × NodeEnv))

/-- The node tree: `none` when `opendir(USBFS_PATH)` fails, otherwise the
entries `readdir` returns for the bus root, in order. -/
structure UsbTree where
  buses : Option (List BusDir)

/-- The loop `while ((entry = readdir(dir)))` of `scan_busdir`, over the
entries still to come. -/
def scan_entries {Cfg : Type} (E : Ext Cfg) (dirpath : String) :
    List (String × NodeEnv) → State Cfg → State Cfg
  | [], st => st
  | entry :: rest, st =>
    -- if (entry->d_name[0] == '.') continue;
    if is_hidden entry.1 then scan_entries E dirpath rest st
    -- scan_device(dirpath, entry->d_name);   (result ignored)
    else scan_entries E dirpath rest (scan_device E entry.2 st dirpath entry.1).2

/-- The function `scan_busdir(busnum)`; `USBFS_PATH` is a constant of
`libusbi.h`, not among the sources. -/
def scan_busdir {Cfg : Type} (E : Ext Cfg) (USBFS_PATH : String) (bus : BusDir)
    (st : State Cfg) : Int × State Cfg :=
  -- snprintf(dirpath, PATH_MAX, "%s/%s", USBFS_PATH, busnum);
  let dirpath := snprintf_path E.PATH_MAX USBFS_PATH bus.d_name
  -- dir = opendir(dirpath); if (!dir) return -1;
  match bus.listing with
  | none => (-1, st)
  | some entries => (0, scan_entries E dirpath entries st)

/-- The loop `while ((entry = readdir(buses)))` of `libusb_find_devices`, over
the entries still to come. -/
def scan_buses {Cfg : Type} (E : Ext Cfg) (USBFS_PATH : String) :
    List BusDir → State Cfg → State Cfg
  | [], st => st
  | bus :: rest, st =>
    -- if (entry->d_name[0] == '.') continue;
    if is_hidden bus.d_name then scan_buses E USBFS_PATH rest st
    -- scan_busdir(entry->d_name);   (result ignored)
    else scan_buses E USBFS_PATH rest (scan_busdir E USBFS_PATH bus st).2

/-- The function `libusb_find_devices()`. -/
def libusb_find_devices {Cfg : Type} (E : Ext Cfg) (USBFS_PATH : String) (tree : UsbTree)
    (st : State Cfg) : Int × State Cfg :=
  -- buses = opendir(USBFS_PATH); if (!buses) return -1;
  match tree.buses with
  | none => (-1, st)
  | some buses => (0, scan_buses E USBFS_PATH buses st)

/-! ## Sequences of opens -/

/-- Successive calls of `libusb_open`, one per listed request, the returned
handles dropped. -/
def open_each {Cfg : Type} : List (OpenEnv × libusb_dev Cfg) → State Cfg → State Cfg
  | [], st => st
  | req :: rest, st => open_each rest (libusb_open req.1 st req.2).2

/-! ## Vocabulary for statements about the scanner and the descriptors -/

/-- One call of `scan_device`: the directory path, the entry name, and the
behaviour of the node. -/
abbrev Attempt : Type := String × String × NodeEnv

/-- The `scan_device` calls due for one bus entry: none when the bus cannot be
listed, otherwise one per entry whose name does not start with a dot. -/
def bus_attempts {Cfg : Type} (E : Ext Cfg) (USBFS_PATH : String) (bus : BusDir) :
    List Attempt :=
  match bus.listing with
  | none => []
  | some entries =>
    (entries.filter (fun e => !is_hidden e.1)).map
      (fun e => (snprintf_path E.PATH_MAX USBFS_PATH bus.d_name, e.1, e.2))

/-- The `scan_device` calls due for a bus root: those of every bus entry whose
name does not start with a dot, in order. -/
def attempts {Cfg : Type} (E : Ext Cfg) (USBFS_PATH : String) (buses : List BusDir) :
    List Attempt :=
  (buses.filter (fun b => !is_hidden b.d_name)).flatMap (bus_attempts E USBFS_PATH)

/-- The listed `scan_device` calls made one after the other, whatever each of
them returns. -/
def scan_each {Cfg : Type} (E : Ext Cfg) : List Attempt → State Cfg → State Cfg
  | [], st => st
  | a :: rest, st => scan_each E rest (scan_device E a.2.2 st a.1 a.2.1).2

/-- The device one `scan_device` call registers, if it registers one: what the
call puts in an empty registry. -/
def fetched_dev {Cfg : Type} (E : Ext Cfg) (a : Attempt) : Option (libusb_dev Cfg) :=
  (scan_device E a.2.2 State.empty a.1 a.2.1).2.usb_devs.head?

/-- The devices a scan of the tree registers, in the order of discovery. -/
def discovered {Cfg : Type} (E : Ext Cfg) (USBFS_PATH : String) (tree : UsbTree) :
    List (libusb_dev Cfg) :=
  match tree.buses with
  | none => []
  | some buses => (attempts E USBFS_PATH buses).filterMap (fetched_dev E)

/-- The number of bus entries a scan visits: those whose name does not start
with a dot. -/
def buses_visited (buses : List BusDir) : Nat :=
  (buses.filter (fun b => !is_hidden b.d_name)).length

/-- The descriptors passed to `close` in a record of calls, in order. -/
def closeCalls : List Call → List Int
  | [] => []
  | Call.sys_close fd :: cs => fd :: closeCalls cs
  | _ :: cs => closeCalls cs

/-- The descriptors that are open after a record of calls, given those open
before it: an `open` that returns a value `≥ 0` opens it, `close` releases its
argument. -/
def openFds : List Call → List Int → List Int
  | [], fds => fds
  | Call.sys_open _ ret :: cs, fds => openFds cs (if 0 ≤ ret then fds ++ [ret] else fds)
  | Call.sys_close fd :: cs, fds => openFds cs (fds.erase fd)
  | _ :: cs, fds => openFds cs fds

/-- The use one loop iteration of `scan_device` makes of `bigbuffer`
(lines 109 to 117): the size handed to `malloc`, the number of bytes `memcpy`
stores at the start, and the offset and byte count handed to the body `read`. -/
structure BigbufferUse where
  alloc_size : Nat
  memcpy_len : Nat
  read_offset : Nat
  read_count : Nat
  deriving DecidableEq, Repr

/-- The use of `bigbuffer` for a header that decodes to `wTotalLength`:
`malloc(config.wTotalLength)`, `memcpy(bigbuffer, buffer, sizeof(buffer))`,
`read(fd, bigbuffer + 8, tmp)` with `tmp = config.wTotalLength - 8`. -/
def bigbuffer_use (wTotalLength : Nat) : BigbufferUse :=
  ⟨wTotalLength, 8, 8, to_size_t ((wTotalLength : Int) - 8)⟩

/-- Both the copy and the body read stay within the allocated buffer. -/
def BigbufferUse.in_bounds (u : BigbufferUse) : Prop :=
  u.memcpy_len ≤ u.alloc_size ∧ u.read_offset + u.read_count ≤ u.alloc_size

instance BigbufferUse.in_bounds_decidable (u : BigbufferUse) : Decidable u.in_bounds := by
  unfold BigbufferUse.in_bounds
  exact inferInstance

/-! ## Sample inputs for the scanner and the handles -/

/-- A node with one full configuration of 9 bytes. -/
def oneConfigNode : NodeEnv :=
  nodeOf 3 [⟨18, devDescBytes 1⟩, ⟨8, cfgHeaderBytes 9⟩, ⟨1, [50]⟩]

/-- A node whose only configuration header declares `wTotalLength = 4`; the
body read that follows fails with -1. -/
def undersizedNode : NodeEnv :=
  nodeOf 3 [⟨18, devDescBytes 1⟩, ⟨8, cfgHeaderBytes 4⟩, ⟨-1, []⟩]

/-- A node on which `open` returns descriptor 0. -/
def fdZeroNode : NodeEnv :=
  nodeOf 0 [⟨18, devDescBytes 1⟩, ⟨8, cfgHeaderBytes 9⟩, ⟨1, [50]⟩]

/-- A bus root with the entries `.`, `..`, a bus `001` holding a valid node
`002` and a node `003` whose body read is short, and a bus `002` that cannot
be listed. -/
def sampleBuses : List BusDir :=
  [⟨".", some []⟩, ⟨"..", some []⟩,
   ⟨"001", some [(".", oneConfigNode), ("..", oneConfigNode), ("003", shortBodyNode),
     ("002", oneConfigNode)]⟩,
   ⟨"002", none⟩]

/-- A bus root with one bus `001` holding the valid node `002` and the node
`003` whose device-descriptor read is short (17 of 18 bytes). -/
def shortDescBuses : List BusDir :=
  [⟨"001", some [("002", oneConfigNode), ("003", shortDescNode)]⟩]

/-- A bus root with one bus `001` holding the valid nodes `001` and `002`, the
second with two configurations. -/
def twoDeviceBuses : List BusDir :=
  [⟨"001", some [("001", oneConfigNode), ("002", twoConfigNode)]⟩]

/-- The device `scan_device` registers for node `001` of `twoDeviceBuses`. -/
def firstDev : libusb_dev (List Nat) :=
  ⟨decode_dev_desc refExt (devDescBytes 1), [[9, 2, 9, 0, 1, 1, 0, 0x80, 50]],
    "/dev/bus/usb/001/001"⟩

/-- The device `scan_device` registers for node `002` of `twoDeviceBuses`. -/
def secondDev : libusb_dev (List Nat) :=
  ⟨decode_dev_desc refExt (devDescBytes 2),
    [[9, 2, 9, 0, 1, 1, 0, 0x80, 50], [9, 2, 10, 0, 1, 1, 0, 0x80, 50, 1]],
    "/dev/bus/usb/001/002"⟩

/-- The device held by the node a registry pointer designates (`none` for
`NULL` or a position outside the registry). -/
def device_at {Cfg : Type} (st : State Cfg) (p : Option Nat) : Option (libusb_dev Cfg) :=
  p.bind (fun q => st.usb_devs.get? q)

/-- The state after `libusb_init` followed by one scan of the tree. -/
def scanned {Cfg : Type} (E : Ext Cfg) (USBFS_PATH : String) (tree : UsbTree)
    (st : State Cfg) : State Cfg :=
  (libusb_find_devices E USBFS_PATH tree (libusb_init st).2).2

/-- The state after `libusb_init` followed by the listed `libusb_open` calls. -/
def opened {Cfg : Type} (reqs : List (OpenEnv × libusb_dev Cfg)) (st : State Cfg) :
    State Cfg :=
  open_each reqs (libusb_init st).2

/-- The `fd` members of the array `libusb_get_pollfds` stores, in order. -/
def snapshot_fds {Cfg : Type} (st : State Cfg) : Option (List Int) :=
  (libusb_get_pollfds true st).pollfds.map (fun arr => arr.map libusb_pollfd.fd)

/-- Two successful opens: descriptor 3 on `firstDev`, then descriptor 4 on
`secondDev`. -/
def twoOpens : List (OpenEnv × libusb_dev (List Nat)) :=
  [(⟨3, true⟩, firstDev), (⟨4, true⟩, secondDev)]

/-- Two opens of `sampleDev` on each of which `open` fails with -1. -/
def twoFailedOpens : List (OpenEnv × libusb_dev (List Nat)) :=
  [(⟨-1, true⟩, sampleDev), (⟨-1, true⟩, sampleDev)]

/-! ## Lemmas -/

theorem readCounts_append (a b : List Call) :
    readCounts (a ++ b) = readCounts a ++ readCounts b := by
  induction a with
  | nil => rfl
  | cons c cs ih => cases c <;> simp [readCounts, ih]

theorem newCalls_append {Cfg : Type} (st : State Cfg) (u : List (libusb_dev Cfg))
    (o : List (libusb_dev_handle Cfg)) (cs : List Call) :
    newCalls st ⟨u, o, st.calls ++ cs⟩ = cs := by
  simp [newCalls]

/-- The loop runs through any number of complete configurations: it then
continues from the following configuration, having parsed each complete buffer
and issued the two reads of each. -/
theorem fetch_configs_prefix {Cfg : Type} (E : Ext Cfg) (env : NodeEnv) (fd : Int) :
    ∀ (m rest i : Nat) (r : Int) (acc : List Cfg),
      (∀ j, i ≤ j → j < i + m → cfg_complete E env j) →
      ∃ r2 : Int, fetch_configs E env fd (m + rest) i (1 + 2 * i) r acc =
        ((fetch_configs E env fd rest (i + m) (1 + 2 * (i + m)) r2
            (acc ++ (List.range' i m).map
              (fun j => (E.usbi_parse_configuration (cfg_buffer env j)).1))).1,
         (List.range' i m).flatMap (cfg_calls E env fd) ++
          (fetch_configs E env fd rest (i + m) (1 + 2 * (i + m)) r2
            (acc ++ (List.range' i m).map
              (fun j => (E.usbi_parse_configuration (cfg_buffer env j)).1))).2) := by
  intro m
  induction m with
  | zero =>
    intro rest i r acc _
    exact ⟨r, by simp⟩
  | succ m ih =>
    intro rest i r acc h
    obtain ⟨h1, h2, h3⟩ := h i (Nat.le_refl i) (by omega)
    obtain ⟨r2, hr2⟩ := ih rest (i + 1)
      (E.usbi_parse_configuration (cfg_buffer env i)).2
      (acc ++ [(E.usbi_parse_configuration (cfg_buffer env i)).1])
      (fun j hj1 hj2 => h j (by omega) (by omega))
    refine ⟨r2, ?_⟩
    have e1 : m + 1 + rest = (m + rest) + 1 := by omega
    have e2 : 1 + 2 * i + 2 = 1 + 2 * (i + 1) := by omega
    have e3 : 1 + 2 * i + 1 = 2 + 2 * i := by omega
    have e4 : i + (m + 1) = i + 1 + m := by omega
    simp only [cfg_complete, cfg_header, cfg_body, cfg_length] at h1 h2 h3
    rw [e1, fetch_configs]
    simp only [e2, e3]
    rw [if_neg (by omega), h2]
    simp only [Bool.not_true, Bool.false_eq_true, if_false]
    rw [if_neg (by omega)]
    simp only [cfg_buffer, cfg_header, cfg_body] at hr2
    rw [hr2, e4]
    simp [List.range'_succ, cfg_calls, cfg_buffer, cfg_header, cfg_body, cfg_length]

theorem to_size_t_natCast (n : Nat) (h : n < 2 ^ 32) : to_size_t (n : Int) = n := by
  unfold to_size_t SIZE_BITS
  have h2 : ((n : Int)) % (2 ^ 32 : Int) = (n : Int) :=
    Int.emod_eq_of_lt (Int.natCast_nonneg n) (by exact_mod_cast h)
  rw [h2]
  exact Int.toNat_natCast n

theorem cfg_length_lt {Cfg : Type} (E : Ext Cfg) (env : NodeEnv) (i : Nat) :
    cfg_length E env i < 65536 := by
  unfold cfg_length decode_wTotalLength
  exact Nat.mod_lt _ (by decide)

/-- The body request of a configuration whose `wTotalLength` is at least 8. -/
theorem to_size_t_body {Cfg : Type} (E : Ext Cfg) (env : NodeEnv) (i : Nat)
    (h : 8 ≤ cfg_length E env i) :
    to_size_t ((cfg_length E env i : Int) - 8) = cfg_length E env i - 8 := by
  have hlt := cfg_length_lt E env i
  have e : ((cfg_length E env i : Int) - 8) = ((cfg_length E env i - 8 : Nat) : Int) := by
    omega
  rw [e]
  exact to_size_t_natCast _ (by omega)

/-- What `scan_device` does once the device descriptor is read and its
configuration count accepted: everything is decided by the loop. -/
theorem scan_device_loop {Cfg : Type} (E : Ext Cfg) (env : NodeEnv) (st : State Cfg)
    (busdir devnum : String)
    (hdev : env.dev_alloc = true) (hopen : env.open_ret ≠ 0)
    (hfirst : 0 ≤ (env.reads 0).ret)
    (hn1 : 1 ≤ num_configs E env) (hn2 : num_configs E env ≤ E.USB_MAXCONFIG)
    (hcfg : env.config_alloc = true) :
    scan_device E env st busdir devnum =
      (match fetch_configs E env env.open_ret (num_configs E env) 0 1 (env.reads 0).ret [] with
       | (Flow.err r, cs) =>
         (r, ⟨st.usb_devs, st.open_devs,
              st.calls ++ ([Call.sys_open (snprintf_path E.PATH_MAX busdir devnum) env.open_ret,
                Call.sys_read env.open_ret E.DEVICE_DESC_LENGTH] ++ cs ++
                [Call.sys_close env.open_ret])⟩)
       | (Flow.done r config, cs) =>
         if env.path_alloc = true then
           (0, ⟨⟨decode_dev_desc E (env.reads 0).buf, config,
                  snprintf_path E.PATH_MAX busdir devnum⟩ :: st.usb_devs, st.open_devs,
              st.calls ++ ([Call.sys_open (snprintf_path E.PATH_MAX busdir devnum) env.open_ret,
                Call.sys_read env.open_ret E.DEVICE_DESC_LENGTH] ++ cs ++
                [Call.sys_close env.open_ret])⟩)
         else
           (r, ⟨st.usb_devs, st.open_devs,
              st.calls ++ ([Call.sys_open (snprintf_path E.PATH_MAX busdir devnum) env.open_ret,
                Call.sys_read env.open_ret E.DEVICE_DESC_LENGTH] ++ cs ++
                [Call.sys_close env.open_ret])⟩)) := by
  unfold num_configs at hn1 hn2
  unfold scan_device
  simp only [hdev, hcfg, Bool.not_true, Bool.false_eq_true, if_false, if_neg hopen,
    if_neg (not_lt.mpr hfirst), if_neg (not_lt.mpr hn2), if_neg (not_lt.mpr hn1), num_configs]
  split
  · simp [scan_err, State.call, State.callMany, hopen]
  · cases env.path_alloc <;> simp [scan_err, State.call, State.callMany, hopen, list_add]

/-- When every configuration is complete the loop runs to completion, with
every complete buffer parsed and two reads issued per configuration. -/
theorem fetch_configs_all {Cfg : Type} (E : Ext Cfg) (env : NodeEnv) (fd : Int) (n : Nat)
    (r : Int) (h : ∀ j, j < n → cfg_complete E env j) :
    ∃ r2 : Int, fetch_configs E env fd n 0 1 r [] =
      (Flow.done r2 ((List.range n).map
          (fun j => (E.usbi_parse_configuration (cfg_buffer env j)).1)),
       (List.range n).flatMap (cfg_calls E env fd)) := by
  obtain ⟨r2, hr2⟩ := fetch_configs_prefix E env fd n 0 0 r []
    (fun j _ hj => h j (by omega))
  refine ⟨r2, ?_⟩
  simp only [Nat.add_zero, Nat.mul_zero, Nat.zero_add] at hr2
  rw [hr2, fetch_configs]
  simp [List.range_eq_range']

theorem readCounts_cfg_calls {Cfg : Type} (E : Ext Cfg) (env : NodeEnv) (fd : Int) :
    ∀ l : List Nat, (∀ i, i ∈ l → 8 ≤ cfg_length E env i) →
      readCounts (l.flatMap (cfg_calls E env fd)) =
        l.flatMap (fun i => [8, cfg_length E env i - 8]) := by
  intro l
  induction l with
  | nil => intro _; rfl
  | cons a l ih =>
    intro h
    have ha := to_size_t_body E env a (h a (List.mem_cons_self a l))
    have hl := ih (fun i hi => h i (List.mem_cons_of_mem a hi))
    simp only [List.flatMap_cons, readCounts_append, hl]
    simp [cfg_calls, readCounts, ha]

theorem length_flatMap_pair (f : Nat → Nat) (g : Nat → Nat) :
    ∀ l : List Nat, (l.flatMap (fun i => [f i, g i])).length = 2 * l.length := by
  intro l
  induction l with
  | nil => rfl
  | cons a l ih => simp only [List.flatMap_cons, List.length_append, ih]; simp; omega

/-- One iteration whose body read comes up short leaves the loop by `goto err`
right after that read. -/
theorem fetch_configs_short_body {Cfg : Type} (E : Ext Cfg) (env : NodeEnv) (fd : Int)
    (rest i : Nat) (r : Int) (acc : List Cfg)
    (hhdr : 8 ≤ to_size_t (cfg_header env i).ret) (hbig : env.big_alloc i = true)
    (hshort : (cfg_body env i).ret < (cfg_length E env i : Int) - 8) :
    fetch_configs E env fd (rest + 1) i (1 + 2 * i) r acc =
      (Flow.err (cfg_body env i).ret, cfg_calls E env fd i) := by
  have e3 : 1 + 2 * i + 1 = 2 + 2 * i := by omega
  simp only [cfg_header, cfg_body, cfg_length] at hhdr hshort
  rw [fetch_configs]
  simp only [e3]
  rw [if_neg (by omega), hbig]
  simp only [Bool.not_true, Bool.false_eq_true, if_false]
  rw [if_pos hshort]
  simp [cfg_calls, cfg_body, cfg_header, cfg_length]

/-- The loop stopped by a short body read in configuration `j`, every earlier
configuration being complete. -/
theorem fetch_configs_stops_at_body {Cfg : Type} (E : Ext Cfg) (env : NodeEnv) (fd : Int)
    (n j : Nat) (r : Int) (hj : j < n)
    (hprev : ∀ i, i < j → cfg_complete E env i)
    (hhdr : 8 ≤ to_size_t (cfg_header env j).ret) (hbig : env.big_alloc j = true)
    (hshort : (cfg_body env j).ret < (cfg_length E env j : Int) - 8) :
    fetch_configs E env fd n 0 1 r [] =
      (Flow.err (cfg_body env j).ret, (List.range (j + 1)).flatMap (cfg_calls E env fd)) := by
  obtain ⟨rest, hrest⟩ : ∃ rest, n = j + (rest + 1) := ⟨n - j - 1, by omega⟩
  obtain ⟨r2, hr2⟩ := fetch_configs_prefix E env fd j (rest + 1) 0 r []
    (fun i _ hi => hprev i (by omega))
  simp only [Nat.mul_zero, Nat.add_zero, Nat.zero_add] at hr2
  rw [hrest, hr2, fetch_configs_short_body E env fd rest j r2 _ hhdr hbig hshort]
  simp [List.range_succ, List.range_eq_range']

/-- One iteration whose header read returns 0 to 7 bytes leaves the loop by
`goto err` right after that read. -/
theorem fetch_configs_short_header {Cfg : Type} (E : Ext Cfg) (env : NodeEnv) (fd : Int)
    (rest i : Nat) (r : Int) (acc : List Cfg)
    (h0 : 0 ≤ (cfg_header env i).ret) (h8 : (cfg_header env i).ret < 8) :
    fetch_configs E env fd (rest + 1) i (1 + 2 * i) r acc =
      (Flow.err (cfg_header env i).ret, [Call.sys_read fd 8]) := by
  obtain ⟨n, hn⟩ := Int.eq_ofNat_of_zero_le h0
  have hlt : to_size_t (cfg_header env i).ret < 8 := by
    rw [hn] at h8 ⊢
    rw [to_size_t_natCast n (by omega)]
    omega
  simp only [cfg_header] at hlt
  rw [fetch_configs]
  simp only [if_pos hlt, cfg_header]

/-- A header read that returns 0 to 7 bytes in configuration `j` (every earlier
configuration complete) ends `scan_device`: no read follows it and the
registries are left as they were. -/
theorem scan_device_short_header_read {Cfg : Type} (E : Ext Cfg) (env : NodeEnv)
    (st : State Cfg) (busdir devnum : String) (j : Nat)
    (hdev : env.dev_alloc = true) (hopen : env.open_ret ≠ 0)
    (hfirst : 0 ≤ (env.reads 0).ret)
    (hn1 : 1 ≤ num_configs E env) (hn2 : num_configs E env ≤ E.USB_MAXCONFIG)
    (hcfg : env.config_alloc = true)
    (hj : j < num_configs E env)
    (hprev : ∀ i, i < j → cfg_complete E env i)
    (h0 : 0 ≤ (cfg_header env j).ret) (h8 : (cfg_header env j).ret < 8) :
    (scan_device E env st busdir devnum).2.usb_devs = st.usb_devs ∧
      (scan_device E env st busdir devnum).2.open_devs = st.open_devs ∧
      newCalls st (scan_device E env st busdir devnum).2 =
        [Call.sys_open (snprintf_path E.PATH_MAX busdir devnum) env.open_ret,
          Call.sys_read env.open_ret E.DEVICE_DESC_LENGTH] ++
        ((List.range j).flatMap (cfg_calls E env env.open_ret) ++
          [Call.sys_read env.open_ret 8]) ++
        [Call.sys_close env.open_ret] := by
  obtain ⟨rest, hrest⟩ : ∃ rest, num_configs E env = j + (rest + 1) :=
    ⟨num_configs E env - j - 1, by omega⟩
  obtain ⟨r2, hr2⟩ := fetch_configs_prefix E env env.open_ret j (rest + 1) 0
    (env.reads 0).ret [] (fun i _ hi => hprev i (by omega))
  simp only [Nat.mul_zero, Nat.add_zero, Nat.zero_add] at hr2
  rw [scan_device_loop E env st busdir devnum hdev hopen hfirst hn1 hn2 hcfg, hrest, hr2,
    fetch_configs_short_header E env env.open_ret rest j r2 _ h0 h8]
  rw [← List.range_eq_range']
  exact ⟨rfl, rfl, newCalls_append st _ _ _⟩

theorem poll_store_length (arr : List libusb_pollfd) (s : Store) :
    (poll_store arr s).length = arr.length := by
  unfold poll_store
  cases arr.get? s.index with
  | none => rfl
  | some e => cases s.field <;> simp

/-- An assignment to an `fd` member sets that position in the list of `fd`s. -/
theorem poll_store_fd (arr : List libusb_pollfd) (i : Nat) (v : Int) :
    (poll_store arr ⟨i, PollField.fd, v⟩).map libusb_pollfd.fd =
      (arr.map libusb_pollfd.fd).set i v := by
  unfold poll_store
  cases h : arr.get? i with
  | none =>
    have hlen : arr.length ≤ i := List.get?_eq_none.mp h
    simp only [h]
    rw [List.set_eq_of_length_le (by simpa using hlen)]
  | some e => simp [h, List.map_set]

/-- An assignment to an `events` member leaves every `fd` as it is. -/
theorem poll_store_events (arr : List libusb_pollfd) (i : Nat) (v : Int) :
    (poll_store arr ⟨i, PollField.events, v⟩).map libusb_pollfd.fd =
      arr.map libusb_pollfd.fd := by
  unfold poll_store
  cases h : arr.get? i with
  | none => simp [h]
  | some e =>
    have he : arr[i]? = some e := by rw [← List.get?_eq_getElem?]; exact h
    simp only [h, List.map_set]
    apply List.ext_getElem?
    intro k
    rw [List.getElem?_set]
    by_cases hk : i = k
    · subst hk
      obtain ⟨hlt, hget⟩ := List.getElem?_eq_some.mp he
      simp [hlt, hget]
    · simp [hk]

theorem take_set_succ {α : Type} (v : α) :
    ∀ (l : List α) (i : Nat), i < l.length → (l.set i v).take (i + 1) = l.take i ++ [v] := by
  intro l
  induction l with
  | nil => intro i h; simp at h
  | cons a l ih =>
    intro i h
    cases i with
    | zero => simp
    | succ i =>
      have := ih i (by simpa using h)
      simp [this]

/-- The filling loop writes the handles' descriptors, in order, from index `i`
on, and keeps the length of the array. -/
theorem fill_pollfds_fds {Cfg : Type} :
    ∀ (hs : List (libusb_dev_handle Cfg)) (i : Nat) (arr : List libusb_pollfd),
      i + hs.length = arr.length →
      (fill_pollfds hs i arr).1.length = arr.length ∧
        (fill_pollfds hs i arr).1.map libusb_pollfd.fd =
          (arr.map libusb_pollfd.fd).take i ++ hs.map libusb_dev_handle.fd := by
  intro hs
  induction hs with
  | nil =>
    intro i arr h
    simp only [List.length_nil, Nat.add_zero] at h
    simp [fill_pollfds, List.take_of_length_le, h]
  | cons d rest ih =>
    intro i arr h
    simp only [List.length_cons] at h
    have hlen : (poll_store (poll_store arr ⟨i, PollField.fd, d.fd⟩)
        ⟨i + 1, PollField.events, POLLOUT⟩).length = arr.length := by
      rw [poll_store_length, poll_store_length]
    obtain ⟨h1, h2⟩ := ih (i + 1) (poll_store (poll_store arr ⟨i, PollField.fd, d.fd⟩)
      ⟨i + 1, PollField.events, POLLOUT⟩) (by rw [hlen]; omega)
    simp only [fill_pollfds]
    refine ⟨by rw [h1, hlen], ?_⟩
    rw [h2, poll_store_events, poll_store_fd,
      take_set_succ d.fd _ i (by rw [List.length_map]; omega)]
    simp

/-- The snapshot of a registry: the count returned, and an array of that many
elements holding the handles' descriptors in registry order. -/
theorem get_pollfds_fds {Cfg : Type} (st : State Cfg) :
    (libusb_get_pollfds true st).ret = st.open_devs.length ∧
      ∃ arr, (libusb_get_pollfds true st).pollfds = some arr ∧
        arr.length = st.open_devs.length ∧
        arr.map libusb_pollfd.fd = st.open_devs.map libusb_dev_handle.fd := by
  obtain ⟨h1, h2⟩ := fill_pollfds_fds st.open_devs 0
    (List.replicate st.open_devs.length ⟨0, 0⟩) (by simp)
  refine ⟨rfl, _, rfl, ?_, ?_⟩
  · rw [h1]; simp
  · rw [h2]; simp

/-! ## Claims about scan_device -/

/-- C1. Two-phase configuration read: on a node whose device descriptor is read
in full and announces a valid number `n` of configurations, each header
decoding to a `wTotalLength` of at least 8, when no read comes up short (and
the allocations succeed) the reads `scan_device` issues are, in order, the
device-descriptor read and then for each configuration a request for 8 bytes
followed by a request for `wTotalLength - 8` bytes and nothing else: `1 + 2 * n`
reads in all, the two requests of a configuration adding up to its
`wTotalLength`. -/
theorem scan_device_two_phase_reads {Cfg : Type} (E : Ext Cfg) (env : NodeEnv)
    (st : State Cfg) (busdir devnum : String)
    (hdev : env.dev_alloc = true) (hopen : env.open_ret ≠ 0)
    (hcfg : env.config_alloc = true)
    (hbig : ∀ i, i < num_configs E env → env.big_alloc i = true)
    (hn1 : 1 ≤ num_configs E env) (hn2 : num_configs E env ≤ E.USB_MAXCONFIG)
    (hlen : ∀ i, i < num_configs E env → 8 ≤ cfg_length E env i)
    (hfirst : (env.reads 0).ret = E.DEVICE_DESC_LENGTH)
    (hhdr : ∀ i, i < num_configs E env → (cfg_header env i).ret = 8)
    (hbody : ∀ i, i < num_configs E env →
      (cfg_body env i).ret = (cfg_length E env i : Int) - 8) :
    readCounts (newCalls st (scan_device E env st busdir devnum).2) =
        E.DEVICE_DESC_LENGTH ::
          (List.range (num_configs E env)).flatMap (fun i => [8, cfg_length E env i - 8]) ∧
      (readCounts (newCalls st (scan_device E env st busdir devnum).2)).length =
        1 + 2 * num_configs E env ∧
      ∀ i, i < num_configs E env → 8 + (cfg_length E env i - 8) = cfg_length E env i := by
  have hall : ∀ j, j < num_configs E env → cfg_complete E env j := by
    intro j hj
    refine ⟨?_, hbig j hj, ?_⟩
    · rw [hhdr j hj]; decide
    · rw [hbody j hj]
  obtain ⟨r2, hr2⟩ := fetch_configs_all E env env.open_ret (num_configs E env)
    (env.reads 0).ret hall
  have hreads : readCounts (newCalls st (scan_device E env st busdir devnum).2) =
      E.DEVICE_DESC_LENGTH ::
        (List.range (num_configs E env)).flatMap (fun i => [8, cfg_length E env i - 8]) := by
    rw [scan_device_loop E env st busdir devnum hdev hopen (by rw [hfirst]; omega) hn1 hn2 hcfg,
      hr2]
    have hrc := readCounts_cfg_calls E env env.open_ret (List.range (num_configs E env))
      (fun i hi => hlen i (List.mem_range.mp hi))
    cases env.path_alloc <;>
      simp [newCalls_append, readCounts_append, readCounts, hrc]
  refine ⟨hreads, ?_, fun i hi => by have := hlen i hi; omega⟩
  rw [hreads, List.length_cons, length_flatMap_pair, List.length_range]
  omega

theorem scan_device_two_phase_reads_witness :
    readCounts (newCalls State.empty
      (scan_device refExt twoConfigNode State.empty "/dev/bus/usb/001" "002").2) =
      [18, 8, 1, 8, 2] :=
  (scan_device_two_phase_reads refExt twoConfigNode State.empty "/dev/bus/usb/001" "002"
    (by decide) (by decide) (by decide) (by decide) (by decide) (by decide) (by decide)
    (by decide) (by decide) (by decide)).1

/-- C2. Configuration-count validation: when the decoded device descriptor
announces 0 configurations or more than `USB_MAXCONFIG`, `scan_device` returns a
negative value, leaves both registries as they were, and issues no read other
than the device-descriptor read; when the descriptor was in fact read (the
device allocated, `open` non-zero, the first read not failed) the value
returned is -1 and the device-descriptor read is the only read. -/
theorem scan_device_bad_config_count {Cfg : Type} (E : Ext Cfg) (env : NodeEnv)
    (st : State Cfg) (busdir devnum : String)
    (h : num_configs E env = 0 ∨ E.USB_MAXCONFIG < num_configs E env) :
    (scan_device E env st busdir devnum).1 < 0 ∧
      (scan_device E env st busdir devnum).2.usb_devs = st.usb_devs ∧
      (scan_device E env st busdir devnum).2.open_devs = st.open_devs ∧
      (readCounts (newCalls st (scan_device E env st busdir devnum).2) = [] ∨
        readCounts (newCalls st (scan_device E env st busdir devnum).2) =
          [E.DEVICE_DESC_LENGTH]) ∧
      (env.dev_alloc = true → env.open_ret ≠ 0 → 0 ≤ (env.reads 0).ret →
        (scan_device E env st busdir devnum).1 = -1 ∧
        readCounts (newCalls st (scan_device E env st busdir devnum).2) =
          [E.DEVICE_DESC_LENGTH]) := by
  unfold num_configs at h
  unfold scan_device
  cases hdev : env.dev_alloc
  · simp [newCalls, readCounts]
  · by_cases hopen : env.open_ret = 0
    · simp [hopen, scan_err, State.call, newCalls, readCounts]
    · by_cases hret : (env.reads 0).ret < 0
      · simp [hopen, hret, scan_err, State.call, newCalls, readCounts]
      · rcases h with h | h
        · have h1 : ¬ (decode_dev_desc E (env.reads 0).buf).bNumConfigurations >
              E.USB_MAXCONFIG := by omega
          simp [hopen, hret, h1, h, scan_err, State.call, newCalls, readCounts]
        · simp [hopen, hret, h, scan_err, State.call, newCalls, readCounts]

theorem scan_device_bad_config_count_witness :
    (scan_device refExt noConfigNode State.empty "/dev/bus/usb/001" "002").1 < 0 ∧
      (scan_device refExt noConfigNode State.empty "/dev/bus/usb/001" "002").2.usb_devs = [] ∧
      readCounts (newCalls State.empty
        (scan_device refExt noConfigNode State.empty "/dev/bus/usb/001" "002").2) = [18] :=
  have h := scan_device_bad_config_count refExt noConfigNode State.empty
    "/dev/bus/usb/001" "002" (by decide)
  ⟨h.1, h.2.1, (h.2.2.2.2 (by decide) (by decide) (by decide)).2⟩

/-- C3. A short device-descriptor read is not treated as a failure: on a node
whose first read returns 17 bytes (fewer than `DEVICE_DESC_LENGTH = 18`) while
the untouched last byte of `raw_desc` holds 1, `scan_device` goes on to issue
both configuration reads, returns 0 and adds a device to the registry. -/
theorem scan_device_short_descriptor_read :
    (shortDescNode.reads 0).ret = 17 ∧
      (scan_device refExt shortDescNode State.empty "/dev/bus/usb/001" "002").1 = 0 ∧
      readCounts (newCalls State.empty
        (scan_device refExt shortDescNode State.empty "/dev/bus/usb/001" "002").2) =
        [18, 8, 1] ∧
      (scan_device refExt shortDescNode State.empty
        "/dev/bus/usb/001" "002").2.usb_devs.length = 1 := by
  decide

/-- C4. Short body read: when the loop reaches configuration `j` (every earlier
configuration fetched completely), its header read is full and `bigbuffer` is
allocated, but its body read returns fewer than `wTotalLength - 8` bytes, then
`scan_device` leaves both registries exactly as they were and issues no read
after that body read: the calls it makes are `open`, the device-descriptor
read, the two reads of each configuration up to `j`, and `close`. -/
theorem scan_device_short_body_read {Cfg : Type} (E : Ext Cfg) (env : NodeEnv)
    (st : State Cfg) (busdir devnum : String) (j : Nat)
    (hdev : env.dev_alloc = true) (hopen : env.open_ret ≠ 0)
    (hfirst : 0 ≤ (env.reads 0).ret)
    (hn1 : 1 ≤ num_configs E env) (hn2 : num_configs E env ≤ E.USB_MAXCONFIG)
    (hcfg : env.config_alloc = true)
    (hj : j < num_configs E env)
    (hprev : ∀ i, i < j → cfg_complete E env i)
    (hhdr : 8 ≤ to_size_t (cfg_header env j).ret) (hbig : env.big_alloc j = true)
    (hshort : (cfg_body env j).ret < (cfg_length E env j : Int) - 8) :
    (scan_device E env st busdir devnum).2.usb_devs = st.usb_devs ∧
      (scan_device E env st busdir devnum).2.open_devs = st.open_devs ∧
      newCalls st (scan_device E env st busdir devnum).2 =
        [Call.sys_open (snprintf_path E.PATH_MAX busdir devnum) env.open_ret,
          Call.sys_read env.open_ret E.DEVICE_DESC_LENGTH] ++
        (List.range (j + 1)).flatMap (cfg_calls E env env.open_ret) ++
        [Call.sys_close env.open_ret] := by
  rw [scan_device_loop E env st busdir devnum hdev hopen hfirst hn1 hn2 hcfg,
    fetch_configs_stops_at_body E env env.open_ret (num_configs E env) j _ hj hprev hhdr hbig
      hshort]
  exact ⟨rfl, rfl, newCalls_append st _ _ _⟩

theorem scan_device_short_body_read_witness :
    (scan_device refExt shortBodyNode State.empty "/dev/bus/usb/001" "002").2.usb_devs = [] ∧
      newCalls State.empty
        (scan_device refExt shortBodyNode State.empty "/dev/bus/usb/001" "002").2 =
        [Call.sys_open "/dev/bus/usb/001/002" 3, Call.sys_read 3 18, Call.sys_read 3 8,
          Call.sys_read 3 1, Call.sys_close 3] :=
  have h := scan_device_short_body_read refExt shortBodyNode State.empty
    "/dev/bus/usb/001" "002" 0 (by decide) (by decide) (by decide) (by decide) (by decide)
    (by decide) (by decide) (by decide) (by decide) (by decide) (by decide)
  ⟨h.1, h.2.2⟩

/-- C5. A failed header read is not treated as a failure: on a node with two
configurations where the header read of the second one returns -1, the
comparison `r < sizeof(buffer)` converts -1 to `size_t` and does not hold, so
`scan_device` issues one more read (a body read sized from the stale contents
of `buffer`) before it gives up. -/
theorem scan_device_failed_header_read :
    (cfg_header failedHeaderNode 1).ret = -1 ∧
      ¬ to_size_t (cfg_header failedHeaderNode 1).ret < 8 ∧
      readCounts (newCalls State.empty
        (scan_device refExt failedHeaderNode State.empty "/dev/bus/usb/001" "002").2) =
        [18, 8, 1, 8, 1] := by
  decide

/-- C7. A failed `open` is not detected by `libusb_open`: when `open` returns
-1 the test `!fd` does not hold, so for every state and device `libusb_open`
returns a handle holding descriptor -1, inserts it in the open-handle registry
and registers a poll interest for -1. -/
theorem libusb_open_failed_open {Cfg : Type} (st : State Cfg) (dev : libusb_dev Cfg) :
    libusb_open ⟨-1, true⟩ st dev =
      (some ⟨-1, dev⟩,
        ⟨st.usb_devs, ⟨-1, dev⟩ :: st.open_devs,
          st.calls ++ [Call.sys_open dev.nodepath (-1), Call.usbi_add_pollfd (-1) POLLOUT]⟩) := by
  simp [libusb_open, State.call, list_add]

/-- C8. Close removes exactly one handle, in the right order: for a handle `h`
at position `p` of the open-handle registry, `libusb_close` leaves the registry
with that one node erased (the handles before and after it unchanged and in
order), leaves the device registry alone, and calls `usbi_remove_pollfd` on the
descriptor of `h` and then `close` on it, once each and nothing else; a
snapshot taken afterwards has one entry fewer than one taken before, and its
descriptors are those of the remaining handles. -/
theorem libusb_close_removes_one {Cfg : Type} (st : State Cfg) (p : Nat)
    (h : libusb_dev_handle Cfg) (hp : st.open_devs.get? p = some h) :
    ∃ st2, libusb_close st (some p) = some st2 ∧
      st2.open_devs = st.open_devs.eraseIdx p ∧
      st2.open_devs = st.open_devs.take p ++ st.open_devs.drop (p + 1) ∧
      st.open_devs = st.open_devs.take p ++ h :: st.open_devs.drop (p + 1) ∧
      st2.usb_devs = st.usb_devs ∧
      newCalls st st2 = [Call.usbi_remove_pollfd h.fd, Call.sys_close h.fd] ∧
      (libusb_get_pollfds true st2).ret + 1 = (libusb_get_pollfds true st).ret ∧
      ∃ before after, (libusb_get_pollfds true st).pollfds = some before ∧
        (libusb_get_pollfds true st2).pollfds = some after ∧
        after.length + 1 = before.length ∧
        after.map libusb_pollfd.fd =
          (st.open_devs.eraseIdx p).map libusb_dev_handle.fd := by
  have hp2 : st.open_devs[p]? = some h := by rw [← List.get?_eq_getElem?]; exact hp
  obtain ⟨hlt, hget⟩ := List.getElem?_eq_some.mp hp2
  have hlen : (st.open_devs.eraseIdx p).length + 1 = st.open_devs.length :=
    List.length_eraseIdx_add_one hlt
  have hsplit : st.open_devs = st.open_devs.take p ++ h :: st.open_devs.drop (p + 1) := by
    conv_lhs => rw [← List.take_append_drop p st.open_devs]
    rw [List.drop_eq_getElem_cons hlt, hget]
  obtain ⟨b1, b, b2, b3, _⟩ := get_pollfds_fds st
  obtain ⟨a1, a, a2, a3, a4⟩ := get_pollfds_fds
    (do_close ⟨st.usb_devs, st.open_devs.eraseIdx p, st.calls⟩ h)
  have hopen : (do_close ⟨st.usb_devs, st.open_devs.eraseIdx p, st.calls⟩ h).open_devs =
      st.open_devs.eraseIdx p := rfl
  rw [hopen] at a1 a3 a4
  refine ⟨do_close ⟨st.usb_devs, st.open_devs.eraseIdx p, st.calls⟩ h, ?_, rfl,
    List.eraseIdx_eq_take_drop_succ _ _, hsplit, rfl, ?_, ?_, b, a, b2, a2, ?_, a4⟩
  · simp [libusb_close, hp2, list_del]
  · simp [newCalls, do_close, State.call]
  · rw [a1, b1, hlen]
  · rw [a3, b3, hlen]

theorem libusb_close_removes_one_witness :
    ∃ st2, libusb_close threeOpen (some 1) = some st2 ∧
      st2.open_devs = threeOpen.open_devs.eraseIdx 1 ∧
      st2.open_devs = threeOpen.open_devs.take 1 ++ threeOpen.open_devs.drop (1 + 1) ∧
      threeOpen.open_devs =
        threeOpen.open_devs.take 1 ++ ⟨5, sampleDev⟩ :: threeOpen.open_devs.drop (1 + 1) ∧
      st2.usb_devs = threeOpen.usb_devs ∧
      newCalls threeOpen st2 = [Call.usbi_remove_pollfd 5, Call.sys_close 5] ∧
      (libusb_get_pollfds true st2).ret + 1 = (libusb_get_pollfds true threeOpen).ret ∧
      ∃ before after, (libusb_get_pollfds true threeOpen).pollfds = some before ∧
        (libusb_get_pollfds true st2).pollfds = some after ∧
        after.length + 1 = before.length ∧
        after.map libusb_pollfd.fd = [7, 4] :=
  libusb_close_removes_one threeOpen 1 ⟨5, sampleDev⟩ (by decide)

/-- C9. Snapshot has one entry per open handle: with the allocation succeeding,
`libusb_get_pollfds` returns the number `n` of handles in the registry and
stores an array of `n` elements whose `fd` members are, in registry order, the
descriptors of those handles; with an empty registry it returns 0 and stores an
empty array. -/
theorem libusb_get_pollfds_snapshot {Cfg : Type} (st : State Cfg) :
    (libusb_get_pollfds true st).ret = st.open_devs.length ∧
      (∃ arr, (libusb_get_pollfds true st).pollfds = some arr ∧
        arr.length = st.open_devs.length ∧
        arr.map libusb_pollfd.fd = st.open_devs.map libusb_dev_handle.fd) ∧
      (∀ (u : List (libusb_dev Cfg)) (c : List Call),
        (libusb_get_pollfds true (⟨u, [], c⟩ : State Cfg)).ret = 0 ∧
        (libusb_get_pollfds true (⟨u, [], c⟩ : State Cfg)).pollfds = some []) :=
  ⟨(get_pollfds_fds st).1, (get_pollfds_fds st).2, fun _ _ => ⟨rfl, rfl⟩⟩

/-- C10. The interest mask of the first entry is not `POLLOUT`: with one open
handle `h`, `libusb_get_pollfds` stores the descriptor at index 0 and then
`POLLOUT` at index 1 (the index is incremented between the two assignments), so
the one-element array it returns is `(h.fd, 0)`, and 0 is not `POLLOUT`. -/
theorem libusb_get_pollfds_first_events {Cfg : Type} (u : List (libusb_dev Cfg))
    (h : libusb_dev_handle Cfg) (c : List Call) :
    (libusb_get_pollfds true (⟨u, [h], c⟩ : State Cfg)).pollfds = some [⟨h.fd, 0⟩] ∧
      (libusb_get_pollfds true (⟨u, [h], c⟩ : State Cfg)).stores =
        [⟨0, PollField.fd, h.fd⟩, ⟨1, PollField.events, POLLOUT⟩] ∧
      (0 : Int) ≠ POLLOUT := by
  refine ⟨?_, ?_, by decide⟩
  · simp [libusb_get_pollfds, fill_pollfds, poll_store]
  · simp [libusb_get_pollfds, fill_pollfds]

/-! ## Lemmas about the scanner -/

/-- What one `scan_device` call does to the registries: the open-handle
registry is left alone, and the device registry gains, at its front, the device
the call registers, if any. -/
theorem scan_device_registry {Cfg : Type} (E : Ext Cfg) (env : NodeEnv) (st : State Cfg)
    (busdir devnum : String) :
    (scan_device E env st busdir devnum).2.usb_devs =
        (fetched_dev E (busdir, devnum, env)).toList ++ st.usb_devs ∧
      (scan_device E env st busdir devnum).2.open_devs = st.open_devs := by
  unfold fetched_dev scan_device
  simp only [scan_err, State.call, State.callMany, list_add, State.empty]
  split_ifs <;> try (constructor <;> simp <;> done)
  all_goals
    generalize fetch_configs E env env.open_ret _ 0 1 _ [] = fc
    rcases fc with ⟨_ | _, cs⟩ <;> simp

/-- A sequence of `scan_device` calls puts the devices it registers in front of
the registry, the latest first, and leaves the open-handle registry alone. -/
theorem scan_each_registry {Cfg : Type} (E : Ext Cfg) :
    ∀ (l : List Attempt) (st : State Cfg),
      (scan_each E l st).usb_devs = (l.filterMap (fetched_dev E)).reverse ++ st.usb_devs ∧
        (scan_each E l st).open_devs = st.open_devs := by
  intro l
  induction l with
  | nil => intro st; simp [scan_each]
  | cons a rest ih =>
    intro st
    obtain ⟨h1, h2⟩ := ih (scan_device E a.2.2 st a.1 a.2.1).2
    obtain ⟨h3, h4⟩ := scan_device_registry E a.2.2 st a.1 a.2.1
    simp only [scan_each]
    refine ⟨?_, by rw [h2, h4]⟩
    rw [h1, h3]
    cases hf : fetched_dev E a <;> simp [List.filterMap_cons, hf]

theorem scan_each_append {Cfg : Type} (E : Ext Cfg) :
    ∀ (l1 l2 : List Attempt) (st : State Cfg),
      scan_each E (l1 ++ l2) st = scan_each E l2 (scan_each E l1 st) := by
  intro l1
  induction l1 with
  | nil => intro l2 st; rfl
  | cons a rest ih => intro l2 st; exact ih l2 _

/-- The loop of `scan_busdir` calls `scan_device` on every entry whose name does
not start with a dot, in order. -/
theorem scan_entries_eq {Cfg : Type} (E : Ext Cfg) (dirpath : String) :
    ∀ (entries : List (String × NodeEnv)) (st : State Cfg),
      scan_entries E dirpath entries st =
        scan_each E ((entries.filter (fun e => !is_hidden e.1)).map
          (fun e => (dirpath, e.1, e.2))) st := by
  intro entries
  induction entries with
  | nil => intro st; rfl
  | cons e rest ih =>
    intro st
    cases h : is_hidden e.1 <;> simp [scan_entries, scan_each, h, ih]

theorem scan_busdir_eq {Cfg : Type} (E : Ext Cfg) (USBFS_PATH : String) (bus : BusDir)
    (st : State Cfg) :
    (scan_busdir E USBFS_PATH bus st).2 = scan_each E (bus_attempts E USBFS_PATH bus) st := by
  unfold scan_busdir bus_attempts
  cases bus.listing with
  | none => rfl
  | some entries => exact scan_entries_eq E _ entries st

/-- The loop of `libusb_find_devices` makes exactly the `scan_device` calls
listed by `attempts`, in order. -/
theorem scan_buses_eq {Cfg : Type} (E : Ext Cfg) (USBFS_PATH : String) :
    ∀ (buses : List BusDir) (st : State Cfg),
      scan_buses E USBFS_PATH buses st = scan_each E (attempts E USBFS_PATH buses) st := by
  intro buses
  induction buses with
  | nil => intro st; rfl
  | cons b rest ih =>
    intro st
    cases h : is_hidden b.d_name
    · simp only [scan_buses, h, Bool.false_eq_true, if_false, ih, scan_busdir_eq]
      simp [attempts, h, scan_each_append]
    · simp only [scan_buses, h, if_true, ih]
      simp [attempts, h]

/-- The registries after a scan of the tree. -/
theorem find_devices_registry {Cfg : Type} (E : Ext Cfg) (USBFS_PATH : String)
    (tree : UsbTree) (st : State Cfg) :
    (libusb_find_devices E USBFS_PATH tree st).2.usb_devs =
        (discovered E USBFS_PATH tree).reverse ++ st.usb_devs ∧
      (libusb_find_devices E USBFS_PATH tree st).2.open_devs = st.open_devs := by
  unfold libusb_find_devices discovered
  cases tree.buses with
  | none => simp
  | some buses =>
    simp only [scan_buses_eq]
    exact scan_each_registry E _ st

/-- The `scan_device` calls due for a bus root are those for the entries, not
starting with a dot, of the listable bus entries not starting with a dot. -/
theorem mem_attempts {Cfg : Type} (E : Ext Cfg) (USBFS_PATH : String) (buses : List BusDir)
    (a : Attempt) :
    a ∈ attempts E USBFS_PATH buses ↔
      ∃ bus entries e, bus ∈ buses ∧ is_hidden bus.d_name = false ∧
        bus.listing = some entries ∧ e ∈ entries ∧ is_hidden e.1 = false ∧
        a = (snprintf_path E.PATH_MAX USBFS_PATH bus.d_name, e.1, e.2) := by
  simp only [attempts, List.mem_flatMap, List.mem_filter, Bool.not_eq_true']
  constructor
  · rintro ⟨bus, ⟨hb, hh⟩, ha⟩
    unfold bus_attempts at ha
    cases hl : bus.listing with
    | none => simp [hl] at ha
    | some entries =>
      simp only [hl, List.mem_map, List.mem_filter, Bool.not_eq_true'] at ha
      obtain ⟨e, ⟨he, heh⟩, rfl⟩ := ha
      exact ⟨bus, entries, e, hb, hh, hl, he, heh, rfl⟩
  · rintro ⟨bus, entries, e, hb, hh, hl, he, heh, rfl⟩
    refine ⟨bus, ⟨hb, hh⟩, ?_⟩
    unfold bus_attempts
    simp only [hl, List.mem_map, List.mem_filter, Bool.not_eq_true']
    exact ⟨e, ⟨he, heh⟩, rfl⟩

/-! ## Claims about the scanner and the registries -/

/-- What the scanner does with failures of single buses and devices: when the
bus root can be listed, `libusb_find_devices` returns 0 and its effect is that
of calling `scan_device` once, in order and whatever the earlier calls
returned, for every entry not starting with a dot of every listable bus entry
not starting with a dot; the device registry gains the devices those calls
register and the open-handle registry is left alone. The value returned is
negative exactly when the bus root cannot be listed, and then the state is
unchanged. Which nodes `scan_device` registers is a separate matter. -/
theorem find_devices_ignores_results {Cfg : Type} (E : Ext Cfg)
    (USBFS_PATH : String) (buses : List BusDir) (st : State Cfg) :
    (libusb_find_devices E USBFS_PATH ⟨some buses⟩ st).1 = 0 ∧
      (libusb_find_devices E USBFS_PATH ⟨some buses⟩ st).2 =
        scan_each E (attempts E USBFS_PATH buses) st ∧
      (∀ a, a ∈ attempts E USBFS_PATH buses ↔
        ∃ bus entries e, bus ∈ buses ∧ is_hidden bus.d_name = false ∧
          bus.listing = some entries ∧ e ∈ entries ∧ is_hidden e.1 = false ∧
          a = (snprintf_path E.PATH_MAX USBFS_PATH bus.d_name, e.1, e.2)) ∧
      (libusb_find_devices E USBFS_PATH ⟨some buses⟩ st).2.usb_devs =
        ((attempts E USBFS_PATH buses).filterMap (fetched_dev E)).reverse ++ st.usb_devs ∧
      (libusb_find_devices E USBFS_PATH ⟨some buses⟩ st).2.open_devs = st.open_devs ∧
      libusb_find_devices E USBFS_PATH ⟨none⟩ st = (-1, st) ∧
      (∀ tree : UsbTree,
        (libusb_find_devices E USBFS_PATH tree st).1 < 0 ↔ tree.buses = none) := by
  refine ⟨rfl, scan_buses_eq E USBFS_PATH buses st, mem_attempts E USBFS_PATH buses,
    (find_devices_registry E USBFS_PATH ⟨some buses⟩ st).1,
    (find_devices_registry E USBFS_PATH ⟨some buses⟩ st).2, rfl, ?_⟩
  intro tree
  unfold libusb_find_devices
  cases tree.buses <;> simp

/-- A bus holding a node whose body read is short and a valid node, next to a
bus that cannot be listed: the scan returns 0 and registers exactly the valid
device. -/
theorem find_devices_short_body_example :
    (libusb_find_devices refExt "/dev/bus/usb" ⟨some sampleBuses⟩ State.empty).1 = 0 ∧
      (libusb_find_devices refExt "/dev/bus/usb" ⟨some sampleBuses⟩ State.empty).2.usb_devs =
        [sampleDev] :=
  have h := find_devices_ignores_results refExt "/dev/bus/usb" sampleBuses
    State.empty
  ⟨h.1, h.2.2.2.1.trans (by decide)⟩

/-- A node on which the body read of some configuration comes up short
registers no device. -/
theorem fetched_dev_short_body {Cfg : Type} (E : Ext Cfg) (env : NodeEnv)
    (busdir devnum : String) (j : Nat)
    (hdev : env.dev_alloc = true) (hopen : env.open_ret ≠ 0)
    (hfirst : 0 ≤ (env.reads 0).ret)
    (hn1 : 1 ≤ num_configs E env) (hn2 : num_configs E env ≤ E.USB_MAXCONFIG)
    (hcfg : env.config_alloc = true)
    (hj : j < num_configs E env)
    (hprev : ∀ i, i < j → cfg_complete E env i)
    (hhdr : 8 ≤ to_size_t (cfg_header env j).ret) (hbig : env.big_alloc j = true)
    (hshort : (cfg_body env j).ret < (cfg_length E env j : Int) - 8) :
    fetched_dev E (busdir, devnum, env) = none := by
  unfold fetched_dev
  simp only
  rw [scan_device_loop E env State.empty busdir devnum hdev hopen hfirst hn1 hn2 hcfg,
    fetch_configs_stops_at_body E env env.open_ret (num_configs E env) j _ hj hprev hhdr hbig
      hshort]
  rfl

/-- A node on which the header read of some configuration returns 0 to 7 bytes
registers no device. -/
theorem fetched_dev_short_header {Cfg : Type} (E : Ext Cfg) (env : NodeEnv)
    (busdir devnum : String) (j : Nat)
    (hdev : env.dev_alloc = true) (hopen : env.open_ret ≠ 0)
    (hfirst : 0 ≤ (env.reads 0).ret)
    (hn1 : 1 ≤ num_configs E env) (hn2 : num_configs E env ≤ E.USB_MAXCONFIG)
    (hcfg : env.config_alloc = true)
    (hj : j < num_configs E env)
    (hprev : ∀ i, i < j → cfg_complete E env i)
    (h0 : 0 ≤ (cfg_header env j).ret) (h8 : (cfg_header env j).ret < 8) :
    fetched_dev E (busdir, devnum, env) = none := by
  unfold fetched_dev
  simp only
  rw [(scan_device_short_header_read E env State.empty busdir devnum j hdev hopen hfirst
    hn1 hn2 hcfg hj hprev h0 h8).1]
  rfl

/-- C13. A node whose device-descriptor read is short is not kept out of the
registry: on a bus holding the valid node `002` and the node `003` whose first
read returns 17 of the 18 descriptor bytes, `libusb_find_devices` returns 0 and
the registry gains two devices, the one of node `003` in front, not exactly the
valid device. -/
theorem libusb_find_devices_registers_short_read_node :
    (shortDescNode.reads 0).ret = 17 ∧
      (libusb_find_devices refExt "/dev/bus/usb" ⟨some shortDescBuses⟩ State.empty).1 = 0 ∧
      (libusb_find_devices refExt "/dev/bus/usb" ⟨some shortDescBuses⟩
          State.empty).2.usb_devs.map (fun d => d.nodepath) =
        ["/dev/bus/usb/001/003", "/dev/bus/usb/001/002"] ∧
      ¬ (libusb_find_devices refExt "/dev/bus/usb" ⟨some shortDescBuses⟩
          State.empty).2.usb_devs = [sampleDev] := by
  decide

/-- C14 (as stated, refuted). On a bus root with two visited buses
`libusb_find_devices` returns 0, not the number of buses it visited. -/
theorem libusb_find_devices_not_bus_count :
    buses_visited sampleBuses = 2 ∧
      ¬ (libusb_find_devices refExt "/dev/bus/usb" ⟨some sampleBuses⟩ State.empty).1 =
        (buses_visited sampleBuses : Int) := by
  decide

/-- C14 (amended). Scan return value: whenever the bus root can be listed,
`libusb_find_devices` returns 0, whatever the number of buses it visited. -/
theorem libusb_find_devices_returns_zero {Cfg : Type} (E : Ext Cfg) (USBFS_PATH : String)
    (buses : List BusDir) (st : State Cfg) :
    (libusb_find_devices E USBFS_PATH ⟨some buses⟩ st).1 = 0 := by
  rfl

/-- C15. Scans are additive: a scan puts the devices it discovers in front of
the registry and leaves the devices already there as they were, all present and
in the same order; a second scan of the same tree adds the same devices once
more, so that from an empty registry two scans leave exactly twice as many
entries as one. -/
theorem libusb_find_devices_additive {Cfg : Type} (E : Ext Cfg) (USBFS_PATH : String)
    (tree : UsbTree) (st : State Cfg) :
    (libusb_find_devices E USBFS_PATH tree st).2.usb_devs =
        (discovered E USBFS_PATH tree).reverse ++ st.usb_devs ∧
      st.usb_devs <:+ (libusb_find_devices E USBFS_PATH tree st).2.usb_devs ∧
      (libusb_find_devices E USBFS_PATH tree
          (libusb_find_devices E USBFS_PATH tree st).2).2.usb_devs =
        (discovered E USBFS_PATH tree).reverse ++
          ((discovered E USBFS_PATH tree).reverse ++ st.usb_devs) ∧
      (∀ (o : List (libusb_dev_handle Cfg)) (c : List Call),
        (libusb_find_devices E USBFS_PATH tree
            (libusb_find_devices E USBFS_PATH tree ⟨[], o, c⟩).2).2.usb_devs.length =
          2 * (libusb_find_devices E USBFS_PATH tree ⟨[], o, c⟩).2.usb_devs.length) := by
  have h1 := (find_devices_registry E USBFS_PATH tree st).1
  refine ⟨h1, ?_, ?_, ?_⟩
  · rw [h1]; exact List.suffix_append _ _
  · rw [(find_devices_registry E USBFS_PATH tree _).1, h1]
  · intro o c
    rw [(find_devices_registry E USBFS_PATH tree _).1,
      (find_devices_registry E USBFS_PATH tree ⟨[], o, c⟩).1]
    simp only [List.append_nil, List.length_append, List.length_reverse]
    omega

/-- C12 (as stated, refuted). After `libusb_init` and the discovery of
`firstDev` and then `secondDev`, `libusb_get_devices` does not return the node
of the device discovered first: it returns the node of `secondDev`. -/
theorem libusb_get_devices_not_first_discovered :
    discovered refExt "/dev/bus/usb" ⟨some twoDeviceBuses⟩ = [firstDev, secondDev] ∧
      ¬ device_at (scanned refExt "/dev/bus/usb" ⟨some twoDeviceBuses⟩ State.empty)
          (libusb_get_devices
            (scanned refExt "/dev/bus/usb" ⟨some twoDeviceBuses⟩ State.empty)) =
        some firstDev ∧
      device_at (scanned refExt "/dev/bus/usb" ⟨some twoDeviceBuses⟩ State.empty)
          (libusb_get_devices
            (scanned refExt "/dev/bus/usb" ⟨some twoDeviceBuses⟩ State.empty)) =
        some secondDev := by
  decide

/-- C12 (amended). Registry iteration follows discovery order backwards: after
`libusb_init` and the discovery of `d1, ..., dn` in that order the registry is
`dn, ..., d1`; `libusb_get_devices` returns the node of `dn` (`NULL` when
`n = 0`), and for the device discovered at rank `k` (counted from 0), whose
node is at position `n - 1 - k`, `libusb_dev_next` returns the node of the
device discovered just before it, and `NULL` for the device discovered
first. -/
theorem registry_iteration_reverse_discovery {Cfg : Type} (E : Ext Cfg)
    (USBFS_PATH : String) (tree : UsbTree) (st : State Cfg) :
    (scanned E USBFS_PATH tree st).usb_devs = (discovered E USBFS_PATH tree).reverse ∧
      device_at (scanned E USBFS_PATH tree st)
          (libusb_get_devices (scanned E USBFS_PATH tree st)) =
        (discovered E USBFS_PATH tree).getLast? ∧
      (∀ k, k < (discovered E USBFS_PATH tree).length →
        device_at (scanned E USBFS_PATH tree st)
            (some ((discovered E USBFS_PATH tree).length - 1 - k)) =
          (discovered E USBFS_PATH tree).get? k ∧
        libusb_dev_next (scanned E USBFS_PATH tree st)
            ((discovered E USBFS_PATH tree).length - 1 - k) =
          some (if k = 0 then none
            else some ((discovered E USBFS_PATH tree).length - 1 - (k - 1)))) := by
  have hreg : (scanned E USBFS_PATH tree st).usb_devs =
      (discovered E USBFS_PATH tree).reverse := by
    unfold scanned
    rw [(find_devices_registry E USBFS_PATH tree _).1]
    simp [libusb_init]
  refine ⟨hreg, ?_, ?_⟩
  · unfold libusb_get_devices device_at
    rw [hreg]
    cases hd : (discovered E USBFS_PATH tree).reverse with
    | nil =>
      have : discovered E USBFS_PATH tree = [] := List.reverse_eq_nil_iff.mp hd
      simp [this]
    | cons a l =>
      have h2 : (discovered E USBFS_PATH tree).getLast? = some a := by
        rw [← List.head?_reverse, hd]; rfl
      simp [h2]
  · intro k hk
    constructor
    · unfold device_at
      rw [hreg]
      simp only [Option.some_bind, List.get?_eq_getElem?]
      rw [List.getElem?_reverse (by omega)]
      congr 1
      omega
    · unfold libusb_dev_next
      rw [hreg, List.length_reverse]
      rw [if_pos (by omega)]
      by_cases h0 : k = 0
      · subst h0
        rw [if_pos (by omega)]
        simp
      · rw [if_neg (by omega), if_neg h0]
        congr 2
        omega

theorem registry_iteration_reverse_discovery_witness :
    (scanned refExt "/dev/bus/usb" ⟨some twoDeviceBuses⟩ State.empty).usb_devs =
        [secondDev, firstDev] ∧
      device_at (scanned refExt "/dev/bus/usb" ⟨some twoDeviceBuses⟩ State.empty)
          (libusb_get_devices
            (scanned refExt "/dev/bus/usb" ⟨some twoDeviceBuses⟩ State.empty)) =
        some secondDev ∧
      libusb_dev_next (scanned refExt "/dev/bus/usb" ⟨some twoDeviceBuses⟩ State.empty) 0 =
        some (some 1) ∧
      libusb_dev_next (scanned refExt "/dev/bus/usb" ⟨some twoDeviceBuses⟩ State.empty) 1 =
        some none :=
  have h := registry_iteration_reverse_discovery refExt "/dev/bus/usb"
    ⟨some twoDeviceBuses⟩ State.empty
  ⟨h.1.trans (by decide), h.2.1.trans (by decide),
    ((h.2.2 1 (by decide)).2).trans (by decide), ((h.2.2 0 (by decide)).2).trans (by decide)⟩

/-! ## Lemmas about handles -/

/-- A sequence of opens that all pass the checks of `libusb_open` puts one
handle per open in front of the open-handle registry, the latest first. -/
theorem open_each_registry {Cfg : Type} :
    ∀ (reqs : List (OpenEnv × libusb_dev Cfg)) (st : State Cfg),
      (∀ r, r ∈ reqs → r.1.open_ret ≠ 0 ∧ r.1.devh_alloc = true) →
      (open_each reqs st).open_devs =
          (reqs.map (fun r => (⟨r.1.open_ret, r.2⟩ : libusb_dev_handle Cfg))).reverse ++
            st.open_devs ∧
        (open_each reqs st).usb_devs = st.usb_devs := by
  intro reqs
  induction reqs with
  | nil => intro st _; simp [open_each]
  | cons r rest ih =>
    intro st h
    obtain ⟨h1, h2⟩ := h r (List.mem_cons_self r rest)
    obtain ⟨h3, h4⟩ := ih (libusb_open r.1 st r.2).2
      (fun q hq => h q (List.mem_cons_of_mem r hq))
    have hstep : (libusb_open r.1 st r.2).2.open_devs = ⟨r.1.open_ret, r.2⟩ :: st.open_devs ∧
        (libusb_open r.1 st r.2).2.usb_devs = st.usb_devs := by
      simp [libusb_open, h1, h2, State.call, list_add]
    simp only [open_each]
    rw [h3, h4, hstep.1, hstep.2]
    simp

/-- The teardown loop calls `usbi_remove_pollfd` and then `close` for each
handle in turn and changes neither registry. -/
theorem close_each_eq {Cfg : Type} :
    ∀ (hs : List (libusb_dev_handle Cfg)) (st : State Cfg),
      close_each hs st =
        ⟨st.usb_devs, st.open_devs,
          st.calls ++ hs.flatMap
            (fun h => [Call.usbi_remove_pollfd h.fd, Call.sys_close h.fd])⟩ := by
  intro hs
  induction hs with
  | nil => intro st; simp [close_each]
  | cons h rest ih =>
    intro st
    simp only [close_each, ih, do_close, State.call]
    simp

/-! ## Claims about handles, teardown and the snapshot -/

/-- C11 (as stated, refuted). After `libusb_init` and two successful opens, on
descriptor 3 and then on descriptor 4, the snapshot lists descriptor 4 first:
its entries are not in the order of opening. -/
theorem snapshot_not_open_order :
    snapshot_fds (opened twoOpens State.empty) = some [4, 3] ∧
      ¬ snapshot_fds (opened twoOpens State.empty) = some [3, 4] := by
  decide

/-- C11 (amended). Snapshot order is reverse open order: after `libusb_init`
followed by opens on `d1, ..., dn` that all pass the checks of `libusb_open`
(`open` returns a non-zero value and the handle is allocated), with no close in
between, `libusb_get_pollfds` returns `n` and an array of `n` entries whose
descriptors are those of the opens in reverse order: the handle opened last
comes first. -/
theorem snapshot_reverse_open_order {Cfg : Type} (reqs : List (OpenEnv × libusb_dev Cfg))
    (st : State Cfg)
    (hok : ∀ r, r ∈ reqs → r.1.open_ret ≠ 0 ∧ r.1.devh_alloc = true) :
    (libusb_get_pollfds true (opened reqs st)).ret = reqs.length ∧
      (∃ arr, (libusb_get_pollfds true (opened reqs st)).pollfds = some arr ∧
        arr.length = reqs.length) ∧
      snapshot_fds (opened reqs st) = some (reqs.map (fun r => r.1.open_ret)).reverse := by
  have hreg : (opened reqs st).open_devs =
      (reqs.map (fun r => (⟨r.1.open_ret, r.2⟩ : libusb_dev_handle Cfg))).reverse := by
    unfold opened
    rw [(open_each_registry reqs _ hok).1]
    simp [libusb_init]
  obtain ⟨h1, arr, h2, h3, h4⟩ := get_pollfds_fds (opened reqs st)
  rw [hreg] at h1 h3 h4
  refine ⟨by simpa using h1, ⟨arr, h2, by simpa using h3⟩, ?_⟩
  unfold snapshot_fds
  rw [h2, Option.map_some', h4]
  simp [List.map_reverse, Function.comp_def]

theorem snapshot_reverse_open_order_witness :
    (libusb_get_pollfds true (opened twoOpens State.empty)).ret = 2 ∧
      snapshot_fds (opened twoOpens State.empty) = some [4, 3] :=
  have h := snapshot_reverse_open_order twoOpens State.empty (by decide)
  ⟨h.1, h.2.2⟩

/-- C16. Teardown force-closes stragglers: `libusb_exit` calls, for each handle
of the open-handle registry in turn, `usbi_remove_pollfd` on its descriptor and
then `close` on it, once each, and makes no other call; it leaves the device
registry (and the open-handle registry) as it was; with an empty open-handle
registry it does nothing. -/
theorem libusb_exit_force_closes {Cfg : Type} (st : State Cfg) :
    newCalls st (libusb_exit st) =
        st.open_devs.flatMap
          (fun h => [Call.usbi_remove_pollfd h.fd, Call.sys_close h.fd]) ∧
      (libusb_exit st).usb_devs = st.usb_devs ∧
      (libusb_exit st).open_devs = st.open_devs ∧
      (∀ (u : List (libusb_dev Cfg)) (c : List Call),
        libusb_exit (⟨u, [], c⟩ : State Cfg) = ⟨u, [], c⟩) := by
  unfold libusb_exit
  refine ⟨?_, ?_, ?_, fun _ _ => rfl⟩ <;>
    cases h : st.open_devs <;> simp [close_each_eq, newCalls, h]

/-! ## Descriptors and bounds -/

theorem closeCalls_append (a b : List Call) :
    closeCalls (a ++ b) = closeCalls a ++ closeCalls b := by
  induction a with
  | nil => rfl
  | cons c cs ih => cases c <;> simp [closeCalls, ih]

/-- The configuration loop never calls `close`. -/
theorem fetch_configs_no_close {Cfg : Type} (E : Ext Cfg) (env : NodeEnv) (fd : Int) :
    ∀ (todo i k : Nat) (r : Int) (acc : List Cfg),
      closeCalls (fetch_configs E env fd todo i k r acc).2 = [] := by
  intro todo
  induction todo with
  | zero => intro i k r acc; rfl
  | succ n ih =>
    intro i k r acc
    unfold fetch_configs
    simp only
    split_ifs <;> simp [closeCalls, ih]

/-- When `open` returns a non-zero value, `scan_device` calls `close` on it
exactly once, on every path. -/
theorem scan_device_closes_nonzero_fd {Cfg : Type} (E : Ext Cfg) (env : NodeEnv)
    (st : State Cfg) (busdir devnum : String)
    (hdev : env.dev_alloc = true) (hopen : env.open_ret ≠ 0) :
    closeCalls (newCalls st (scan_device E env st busdir devnum).2) = [env.open_ret] := by
  have hnc := fetch_configs_no_close E env env.open_ret
    (decode_dev_desc E (env.reads 0).buf).bNumConfigurations 0 1 (env.reads 0).ret []
  unfold scan_device
  simp only [hdev, hopen, scan_err, State.call, State.callMany, list_add, newCalls,
    Bool.not_true, Bool.false_eq_true, if_false, ne_eq, not_false_eq_true, if_true]
  split_ifs <;> try (simp [closeCalls] <;> done)
  all_goals
    generalize fetch_configs E env env.open_ret _ 0 1 _ [] = fc at hnc
    rcases fc with ⟨_ | _, cs⟩ <;>
      simp [closeCalls, closeCalls_append] <;> simpa using hnc

/-- The filling loop ends with an assignment to the `events` member one place
past the last handle. -/
theorem fill_pollfds_last_store {Cfg : Type} :
    ∀ (hs : List (libusb_dev_handle Cfg)) (h : libusb_dev_handle Cfg) (i : Nat)
      (arr : List libusb_pollfd),
      (⟨i + hs.length + 1, PollField.events, POLLOUT⟩ : Store) ∈
        (fill_pollfds (h :: hs) i arr).2 := by
  intro hs
  induction hs with
  | nil => intro h i arr; simp [fill_pollfds]
  | cons h2 rest ih =>
    intro h i arr
    have := ih h2 (i + 1) (poll_store (poll_store arr ⟨i, PollField.fd, h.fd⟩)
      ⟨i + 1, PollField.events, POLLOUT⟩)
    have e : i + (h2 :: rest).length + 1 = i + 1 + rest.length + 1 := by
      simp only [List.length_cons]; omega
    rw [e]
    rw [fill_pollfds]
    exact List.mem_cons_of_mem _ (List.mem_cons_of_mem _ this)

/-! ## Claims about descriptors and bounds -/

/-- C17. An undersized `wTotalLength` is not rejected: on a node whose only
configuration header decodes to `wTotalLength = 4`, `scan_device` allocates 4
bytes, copies the 8 header bytes into them and asks `read` for
`(size_t)(4 - 8)` bytes at offset 8, both outside the buffer; the body read
returns -1, which is not below `tmp = -4`, so the device is parsed, added to
the registry and 0 is returned. -/
theorem scan_device_undersized_total_length :
    cfg_length refExt undersizedNode 0 = 4 ∧
      bigbuffer_use 4 = ⟨4, 8, 8, 4294967292⟩ ∧
      ¬ (bigbuffer_use (cfg_length refExt undersizedNode 0)).in_bounds ∧
      (scan_device refExt undersizedNode State.empty "/dev/bus/usb/001" "002").1 = 0 ∧
      (scan_device refExt undersizedNode State.empty
        "/dev/bus/usb/001" "002").2.usb_devs.length = 1 ∧
      readCounts (newCalls State.empty
        (scan_device refExt undersizedNode State.empty "/dev/bus/usb/001" "002").2) =
        [18, 8, 4294967292] := by
  decide

/-- C18. Handle descriptors can be shared: after `libusb_init` and two
`libusb_open` calls on which `open` fails with -1, the open-handle registry
holds two handles that both carry the value -1, while no descriptor is open. -/
theorem open_handles_share_failed_fd :
    (opened twoFailedOpens State.empty).open_devs.map libusb_dev_handle.fd = [-1, -1] ∧
      ¬ ((opened twoFailedOpens State.empty).open_devs.map libusb_dev_handle.fd).Nodup ∧
      openFds (opened twoFailedOpens State.empty).calls [] = [] := by
  decide

/-- C19. Descriptor 0 is leaked: when `open` returns the valid descriptor 0,
`scan_device` takes it for a failure, returns -1 without reading, and does not
call `close`, so descriptor 0 is open after the call and was not before. -/
theorem scan_device_leaks_fd_zero :
    fdZeroNode.open_ret = 0 ∧
      (scan_device refExt fdZeroNode State.empty "/dev/bus/usb/001" "002").1 = -1 ∧
      newCalls State.empty
          (scan_device refExt fdZeroNode State.empty "/dev/bus/usb/001" "002").2 =
        [Call.sys_open "/dev/bus/usb/001/002" 0] ∧
      closeCalls (newCalls State.empty
        (scan_device refExt fdZeroNode State.empty "/dev/bus/usb/001" "002").2) = [] ∧
      openFds (newCalls State.empty
        (scan_device refExt fdZeroNode State.empty "/dev/bus/usb/001" "002").2) [] = [0] := by
  decide

/-- C20. A snapshot write lands out of bounds: for every registry with at least
one handle, say `n` of them, `libusb_get_pollfds` allocates an array of `n`
elements and assigns `POLLOUT` to the `events` member at index `n`, which is
not below `n`. -/
theorem libusb_get_pollfds_store_out_of_bounds {Cfg : Type} (u : List (libusb_dev Cfg))
    (h : libusb_dev_handle Cfg) (hs : List (libusb_dev_handle Cfg)) (c : List Call) :
    ∃ arr, (libusb_get_pollfds true (⟨u, h :: hs, c⟩ : State Cfg)).pollfds = some arr ∧
      arr.length = hs.length + 1 ∧
      ∃ s, s ∈ (libusb_get_pollfds true (⟨u, h :: hs, c⟩ : State Cfg)).stores ∧
        s.field = PollField.events ∧ s.index = arr.length ∧ ¬ s.index < arr.length := by
  obtain ⟨_, arr, h2, h3, _⟩ := get_pollfds_fds (⟨u, h :: hs, c⟩ : State Cfg)
  refine ⟨arr, h2, by simpa using h3, ⟨hs.length + 1, PollField.events, POLLOUT⟩, ?_, rfl,
    by simpa using h3.symm, by simp [h3]⟩
  have := fill_pollfds_last_store hs h 0 (List.replicate (hs.length + 1) ⟨0, 0⟩)
  simpa [libusb_get_pollfds] using this

end Libusb
